import Mathlib

/-
Verification of the upload-to-risk churn scoring pipeline
(src/scoring/schema.py, src/scoring/features.py, src/scoring/scoring.py,
src/scoring/predict.py, src/scoring/constants.py).

The embedding models a pandas DataFrame as a list of named columns of
cells.  A cell is numeric (an exact rational, standing for a float),
missing (NaN), or a string (pandas object cells).  Rational arithmetic is
written through Rat.divInt/mkRat so that all definitions evaluate inside
the kernel; bridge lemmas relate these to the ordinary field operations.
-/

namespace Churn

/-- A cell of a pandas column: a numeric value, a missing value (NaN), or a
string (object dtype). -/
inductive Value where
  | num (q : ℚ)
  | nan
  | str (s : String)
deriving DecidableEq, Repr

/-- Subtraction on rationals via Rat.divInt (kernel-evaluable). -/
def qsub (a b : ℚ) : ℚ := Rat.divInt (a.num * b.den - b.num * a.den) (a.den * b.den)

/-- Division on rationals via Rat.divInt (kernel-evaluable). -/
def qdiv (a b : ℚ) : ℚ := Rat.divInt (a.num * b.den) (a.den * b.num)

/-- Multiplication on rationals via Rat.divInt (kernel-evaluable). -/
def qmul (a b : ℚ) : ℚ := Rat.divInt (a.num * b.num) (a.den * b.den)

theorem ratNum_eq_mul_den (a : ℚ) : (a.num : ℚ) = a * a.den := by
  have had : ((a.den : ℚ)) ≠ 0 := Nat.cast_ne_zero.mpr a.den_nz
  exact (div_eq_iff had).mp (Rat.num_div_den a)

theorem qsub_eq (a b : ℚ) : qsub a b = a - b := by
  unfold qsub
  have had : ((a.den : ℚ)) ≠ 0 := Nat.cast_ne_zero.mpr a.den_nz
  have hbd : ((b.den : ℚ)) ≠ 0 := Nat.cast_ne_zero.mpr b.den_nz
  rw [Rat.divInt_eq_div, div_eq_iff (by push_cast; exact mul_ne_zero had hbd)]
  push_cast
  rw [ratNum_eq_mul_den a, ratNum_eq_mul_den b]
  ring

theorem qdiv_eq (a b : ℚ) : qdiv a b = a / b := by
  unfold qdiv
  rcases eq_or_ne b 0 with hb0 | hb0
  · subst hb0
    simp [Rat.divInt_eq_div]
  · have had : ((a.den : ℚ)) ≠ 0 := Nat.cast_ne_zero.mpr a.den_nz
    have hbn : ((b.num : ℚ)) ≠ 0 := by
      exact_mod_cast Rat.num_ne_zero.mpr hb0
    rw [Rat.divInt_eq_div, div_eq_div_iff (by push_cast; exact mul_ne_zero had hbn) hb0]
    push_cast
    rw [ratNum_eq_mul_den a, ratNum_eq_mul_den b]
    ring

theorem qmul_eq (a b : ℚ) : qmul a b = a * b := by
  unfold qmul
  have had : ((a.den : ℚ)) ≠ 0 := Nat.cast_ne_zero.mpr a.den_nz
  have hbd : ((b.den : ℚ)) ≠ 0 := Nat.cast_ne_zero.mpr b.den_nz
  rw [Rat.divInt_eq_div, div_eq_iff (by push_cast; exact mul_ne_zero had hbd)]
  push_cast
  rw [ratNum_eq_mul_den a, ratNum_eq_mul_den b]
  ring

/-- Truncation of a rational toward zero, as in a numpy float-to-int cast. -/
def ratTrunc (q : ℚ) : ℤ := Int.tdiv q.num q.den

/-- Lower-casing of an ASCII character, as Python str.lower does on the
token strings involved here. -/
def lowerChar (c : Char) : Char :=
  if 65 ≤ c.toNat ∧ c.toNat ≤ 90 then Char.ofNat (c.toNat + 32) else c

/-- Whitespace test for the trim operation (Python str.strip). -/
def wsp (c : Char) : Bool := c = ' ' ∨ c = '\t' ∨ c = '\n' ∨ c = '\r'

/-- Remove leading and trailing whitespace, as Python str.strip. -/
def trimStr (s : String) : String :=
  String.mk (((s.data.dropWhile wsp).reverse.dropWhile wsp).reverse)

/-- Python str.lower on the strings involved here (ASCII letters). -/
def lowerStr (s : String) : String := String.mk (s.data.map lowerChar)

/-- leadMatch a b is true when a is an initial segment of b. -/
def leadMatch : List Char → List Char → Bool
  | [], _ => true
  | _ :: _, [] => false
  | a :: as, b :: bs => a = b && leadMatch as bs

/-- endsWithStr s suf is Python s.endswith(suf). -/
def endsWithStr (s suf : String) : Bool :=
  leadMatch suf.data.reverse s.data.reverse

/-- Parse an unsigned decimal literal (digits with an optional fractional
part) to a rational.  Models the fragment of pandas.to_numeric parsing
exercised here; inputs it rejects coerce to NaN. -/
def parseDec (cs : List Char) : Option ℚ :=
  let intPart := cs.takeWhile Char.isDigit
  let rest := cs.dropWhile Char.isDigit
  if intPart = [] then none
  else
    let iv : ℕ := intPart.foldl (fun a c => a * 10 + (c.toNat - 48)) 0
    match rest with
    | [] => some (Rat.divInt iv 1)
    | '.' :: frac =>
        if frac ≠ [] ∧ frac.all Char.isDigit then
          let fv : ℕ := frac.foldl (fun a c => a * 10 + (c.toNat - 48)) 0
          some (Rat.divInt (iv * 10 ^ frac.length + fv) (10 ^ frac.length))
        else none
    | _ => none

/-- Best-effort numeric parsing of a string, with an optional sign, as used
by pandas.to_numeric with errors="coerce". -/
def parseRat (s : String) : Option ℚ :=
  match (trimStr s).data with
  | [] => none
  | '-' :: rest => (parseDec rest).map (fun q => Rat.divInt (-q.num) q.den)
  | '+' :: rest => parseDec rest
  | cs => parseDec cs

/-- Python str() rendering of a cell.  Missing values render as "nan".
Integers render as Python ints do; a non-integral rational renders as
num/den (the claims below only consult renderings whose outcome agrees
with the float rendering, see coerce_bool_cell). -/
def valueToStr : Value → String
  | .num q => if q.den = 1 then toString q.num else toString q.num ++ "/" ++ toString q.den
  | .nan => "nan"
  | .str s => s

/-- pandas isna on a cell. -/
def Value.isna : Value → Bool
  | .nan => true
  | _ => false

/-- Whether a cell is a string (object) value. -/
def Value.isStr : Value → Bool
  | .str _ => true
  | _ => false

/-- pandas.to_numeric with errors="coerce" on one cell: numerics pass
through, strings are parsed, anything unparseable becomes NaN. -/
def toNumericCell : Value → Value
  | .num q => .num q
  | .nan => .nan
  | .str s =>
      match parseRat s with
      | some q => .num q
      | none => .nan

/-- Series.fillna(0) on one cell. -/
def fillna0 (v : Value) : Value := if v.isna then .num 0 else v

/-- Float subtraction with NaN propagation. -/
def vsub : Value → Value → Value
  | .num a, .num b => .num (qsub a b)
  | _, _ => .nan

/-- safe_div from src/scoring/features.py, applied cell-wise: the
denominator is first replaced by NaN when it is exactly 0
(den.replace with 0 mapped to np.nan), then divided with NaN propagation,
so a zero denominator yields NaN, never an infinity. -/
def safeDiv (n d : Value) : Value :=
  match d with
  | .num b =>
      if b = 0 then .nan
      else
        match n with
        | .num a => .num (qdiv a b)
        | _ => .nan
  | _ => .nan

/-- A pandas DataFrame: a row count (the index length) and an ordered list
of named columns.  Well-formed frames (DFrame.WF) have every column of
length nrows. -/
structure DFrame where
  nrows : ℕ
  cols : List (String × List Value)
deriving DecidableEq, Repr

/-- Every column holds one cell per row. -/
def DFrame.WF (df : DFrame) : Prop := ∀ p ∈ df.cols, (p.2).length = df.nrows

/-- The ordered list of column names (df.columns). -/
def DFrame.colNames (df : DFrame) : List String := df.cols.map (fun p => p.1)

/-- Column membership (c in df.columns). -/
def DFrame.hasCol (df : DFrame) (c : String) : Bool :=
  df.cols.any (fun p => p.1 == c)

/-- Column lookup (df[c] when present). -/
def DFrame.getCol (df : DFrame) (c : String) : Option (List Value) :=
  (df.cols.find? (fun p => p.1 == c)).map (fun p => p.2)

/-- Column assignment df[c] = vs: replaces the column in place when the
name exists, otherwise appends it on the right, as pandas does. -/
def setColList (cols : List (String × List Value)) (c : String) (vs : List Value) :
    List (String × List Value) :=
  match cols with
  | [] => [(c, vs)]
  | (n, old) :: rest =>
      if n == c then (c, vs) :: rest else (n, old) :: setColList rest c vs

def DFrame.setCol (df : DFrame) (c : String) (vs : List Value) : DFrame :=
  { df with cols := setColList df.cols c vs }

/-- Cell-wise transformation of one column (df[c] = df[c].map(f)); the
identity when the column is absent. -/
def DFrame.mapCol (df : DFrame) (c : String) (f : Value → Value) : DFrame :=
  match df.getCol c with
  | some vs => df.setCol c (vs.map f)
  | none => df

/-- Column selection df[names] in the given order.  Every requested name is
present at each use below (pandas would raise otherwise). -/
def selectCols (df : DFrame) (names : List String) : DFrame :=
  { nrows := df.nrows, cols := names.map (fun c => (c, (df.getCol c).getD [])) }

@[simp] theorem nrows_setCol (df : DFrame) (c : String) (vs : List Value) :
    (df.setCol c vs).nrows = df.nrows := rfl

@[simp] theorem nrows_mapCol (df : DFrame) (c : String) (f : Value → Value) :
    (df.mapCol c f).nrows = df.nrows := by
  unfold DFrame.mapCol
  cases df.getCol c <;> rfl

theorem find?_setColList_self (cols : List (String × List Value)) (c : String)
    (vs : List Value) :
    (setColList cols c vs).find? (fun p => p.1 == c) = some (c, vs) := by
  induction cols with
  | nil => simp [setColList, List.find?]
  | cons p rest ih =>
      obtain ⟨n, old⟩ := p
      by_cases h : n = c
      · subst h
        simp [setColList, List.find?]
      · rw [setColList, if_neg (by simpa using h)]
        rw [List.find?_cons_of_neg _ (by simpa using h)]
        exact ih

theorem find?_setColList_ne (cols : List (String × List Value)) (c c' : String)
    (vs : List Value) (h : c' ≠ c) :
    (setColList cols c vs).find? (fun p => p.1 == c') =
      cols.find? (fun p => p.1 == c') := by
  induction cols with
  | nil =>
      simp only [setColList, List.find?]
      rw [show (c == c') = false from beq_eq_false_iff_ne.mpr (Ne.symm h)]
  | cons p rest ih =>
      obtain ⟨n, old⟩ := p
      by_cases hn : n = c
      · subst hn
        rw [setColList, if_pos (by simp)]
        rw [List.find?_cons_of_neg _ (by simpa using Ne.symm h),
          List.find?_cons_of_neg _ (by simpa using Ne.symm h)]
      · rw [setColList, if_neg (by simpa using hn)]
        by_cases hc : n = c'
        · subst hc
          rw [List.find?_cons_of_pos _ (by simp), List.find?_cons_of_pos _ (by simp)]
        · rw [List.find?_cons_of_neg _ (by simpa using hc),
            List.find?_cons_of_neg _ (by simpa using hc)]
          exact ih

theorem any_setColList (cols : List (String × List Value)) (c c' : String)
    (vs : List Value) :
    (setColList cols c vs).any (fun p => p.1 == c') =
      (c == c' || cols.any (fun p => p.1 == c')) := by
  induction cols with
  | nil => simp [setColList]
  | cons p rest ih =>
      obtain ⟨n, old⟩ := p
      by_cases hn : n = c
      · subst hn
        rw [setColList, if_pos (by simp)]
        simp
      · rw [setColList, if_neg (by simpa using hn)]
        simp only [List.any_cons, ih]
        cases h1 : (n == c') <;> cases h2 : (c == c') <;> simp

theorem mem_setColList (cols : List (String × List Value)) (c : String)
    (vs : List Value) (p : String × List Value) (hp : p ∈ setColList cols c vs) :
    p = (c, vs) ∨ p ∈ cols := by
  induction cols with
  | nil =>
      simp [setColList] at hp
      exact Or.inl hp
  | cons q rest ih =>
      obtain ⟨n, old⟩ := q
      by_cases hn : n = c
      · subst hn
        rw [setColList, if_pos (by simp)] at hp
        rcases List.mem_cons.mp hp with h1 | h1
        · exact Or.inl h1
        · exact Or.inr (List.mem_cons_of_mem _ h1)
      · rw [setColList, if_neg (by simpa using hn)] at hp
        rcases List.mem_cons.mp hp with h1 | h1
        · exact Or.inr (h1 ▸ List.mem_cons_self _ _)
        · rcases ih h1 with h2 | h2
          · exact Or.inl h2
          · exact Or.inr (List.mem_cons_of_mem _ h2)

theorem getCol_setCol_self (df : DFrame) (c : String) (vs : List Value) :
    (df.setCol c vs).getCol c = some vs := by
  unfold DFrame.setCol DFrame.getCol
  simp [find?_setColList_self]

theorem getCol_setCol_ne (df : DFrame) (c c' : String) (vs : List Value)
    (h : c' ≠ c) : (df.setCol c vs).getCol c' = df.getCol c' := by
  unfold DFrame.setCol DFrame.getCol
  simp [find?_setColList_ne df.cols c c' vs h]

theorem hasCol_setCol (df : DFrame) (c c' : String) (vs : List Value) :
    (df.setCol c vs).hasCol c' = (c == c' || df.hasCol c') := by
  unfold DFrame.setCol DFrame.hasCol
  exact any_setColList df.cols c c' vs

theorem getCol_isSome_iff_hasCol (df : DFrame) (c : String) :
    (df.getCol c).isSome = df.hasCol c := by
  unfold DFrame.getCol DFrame.hasCol
  induction df.cols with
  | nil => rfl
  | cons p rest ih =>
      cases h : (p.1 == c)
      · rw [List.find?_cons_of_neg _ (by simp [h]), List.any_cons, h]
        simpa using ih
      · rw [List.find?_cons_of_pos _ (by simp [h]), List.any_cons, h]
        rfl

theorem hasCol_mapCol (df : DFrame) (c c' : String) (f : Value → Value) :
    (df.mapCol c f).hasCol c' = df.hasCol c' := by
  unfold DFrame.mapCol
  cases hg : df.getCol c with
  | none => rfl
  | some vs =>
      rw [hasCol_setCol]
      cases hb : (c == c')
      · simp
      · have : df.hasCol c' = true := by
          rw [← getCol_isSome_iff_hasCol, show c' = c from (beq_iff_eq.mp hb).symm, hg]
          rfl
        simp [this]

theorem getCol_mapCol_self (df : DFrame) (c : String) (f : Value → Value) :
    (df.mapCol c f).getCol c = (df.getCol c).map (List.map f) := by
  unfold DFrame.mapCol
  cases hg : df.getCol c with
  | none => simp [hg]
  | some vs => simp [getCol_setCol_self, hg]

theorem getCol_mapCol_ne (df : DFrame) (c c' : String) (f : Value → Value)
    (h : c' ≠ c) : (df.mapCol c f).getCol c' = df.getCol c' := by
  unfold DFrame.mapCol
  cases df.getCol c with
  | none => rfl
  | some vs => exact getCol_setCol_ne df c c' (vs.map f) h

theorem getCol_mem_cols (df : DFrame) (c : String) (vs : List Value)
    (h : df.getCol c = some vs) : ∃ p ∈ df.cols, p.1 = c ∧ p.2 = vs := by
  unfold DFrame.getCol at h
  cases hf : List.find? (fun p => p.1 == c) df.cols with
  | none => rw [hf] at h; simp at h
  | some p =>
      rw [hf] at h
      simp at h
      have h1 := List.find?_some hf
      exact ⟨p, List.mem_of_find?_eq_some hf, beq_iff_eq.mp h1, h⟩

theorem WF_setCol (df : DFrame) (c : String) (vs : List Value)
    (hdf : df.WF) (hvs : vs.length = df.nrows) : (df.setCol c vs).WF := by
  intro p hp
  simp only [DFrame.setCol, nrows_setCol] at hp ⊢
  rcases mem_setColList df.cols c vs p hp with h1 | h1
  · rw [h1]
    exact hvs
  · exact hdf p h1

theorem WF_getCol_length (df : DFrame) (c : String) (vs : List Value)
    (hdf : df.WF) (h : df.getCol c = some vs) : vs.length = df.nrows := by
  obtain ⟨p, hp, _, hv⟩ := getCol_mem_cols df c vs h
  rw [← hv]
  exact hdf p hp

theorem WF_mapCol (df : DFrame) (c : String) (f : Value → Value)
    (hdf : df.WF) : (df.mapCol c f).WF := by
  unfold DFrame.mapCol
  cases hg : df.getCol c with
  | none => exact hdf
  | some vs =>
      apply WF_setCol df c _ hdf
      rw [List.length_map]
      exact WF_getCol_length df c vs hdf hg

/-! Constants from src/scoring/constants.py and src/scoring/schema.py. -/

/-- REQUIRED_FIELDS from src/scoring/constants.py. -/
def REQUIRED_FIELDS : List String :=
  ["account_id", "plan_tier", "seats_current", "arr_current",
   "usage_count_current", "usage_count_prev",
   "tickets_opened_current", "tickets_opened_prev"]

/-- OPTIONAL_FIELDS from src/scoring/constants.py. -/
def OPTIONAL_FIELDS : List String :=
  ["industry", "company_size", "mrr_current", "mrr_prev",
   "subscription_end_in_current_period"]

/-- TRUE_STR from src/scoring/schema.py. -/
def TRUE_STR : List String := ["true", "t", "1", "yes", "y"]

/-- FALSE_STR from src/scoring/schema.py. -/
def FALSE_STR : List String := ["false", "f", "0", "no", "n"]

/-- The numeric_like column list inside validate_and_coerce. -/
def NUMERIC_LIKE : List String :=
  ["seats_current", "seats_prev", "arr_current", "arr_prev",
   "mrr_current", "mrr_prev", "usage_count_current", "usage_count_prev",
   "tickets_opened_current", "tickets_opened_prev",
   "avg_satisfaction_current", "days_to_contract_end_current"]

/-- numpy astype(int) on one (non-missing, numeric) cell: truncation toward
zero.  The callers below apply it only after fillna, so the cell is always
numeric there. -/
def astypeIntCell : Value → Value
  | .num q => .num (Rat.divInt (ratTrunc q) 1)
  | v => v

/-- coerce_bool from src/scoring/schema.py, applied cell-wise.  The series
is stringified, stripped and lower-cased; true-tokens map to 1 and
false-tokens to 0; a cell matching neither token set falls back to
to_numeric on the original cell (out.fillna(num)); anything still missing
becomes 0 (out.fillna(0)); the result is cast to int.  The bool-dtype fast
path of the source coincides with the token path on this cell domain
(str(True).lower() is a true-token), so it is not modelled separately.
The integer rendering of valueToStr agrees with Python for the integers
0 and 1, and for any other numeric cell the token match fails under both
renderings and the numeric fallback returns the original number, so the
composite has the source's behavior on every cell. -/
def coerce_bool_cell (v : Value) : Value :=
  let s := lowerStr (trimStr (valueToStr v))
  let tok : Value :=
    if s ∈ TRUE_STR then .num 1
    else if s ∈ FALSE_STR then .num 0
    else .nan
  let withNum := if tok.isna then toNumericCell v else tok
  astypeIntCell (fillna0 withNum)

/-- coerce_numeric from src/scoring/schema.py, cell-wise. -/
def coerce_numeric_cell (v : Value) : Value := toNumericCell v

/-- astype(str) on one cell (account_id coercion): missing values become
the literal string "nan". -/
def astypeStrCell (v : Value) : Value := .str (valueToStr v)

/-- The plan_tier coercion: astype(str).str.strip() followed by replacing
the literal "nan" with the empty string. -/
def coerce_plan_tier_cell (v : Value) : Value :=
  let s := trimStr (valueToStr v)
  .str (if s = "nan" then "" else s)

/-- apply_mapping from src/scoring/schema.py.  The mapping is an ordered
association list internal_name -> user_column (a Python dict preserves
insertion order; keys are distinct).  An empty user column stands for
None/"" (unmapped).  Mapped columns are materialized under the internal
name; every input column not used as a mapping target is passed through
under its original name. -/
def apply_mapping (df_input : DFrame) (mapping : List (String × String)) : DFrame :=
  let out0 : DFrame := { nrows := df_input.nrows, cols := [] }
  let out1 := mapping.foldl
    (fun acc p =>
      if p.2 = "" then acc
      else
        match df_input.getCol p.2 with
        | none => acc
        | some vs => acc.setCol p.1 vs)
    out0
  let used := (mapping.map (fun p => p.2)).filter (fun c => !(c == ""))
  let passthrough := df_input.colNames.filter (fun c => !(used.contains c))
  passthrough.foldl
    (fun acc c =>
      match df_input.getCol c with
      | some vs => acc.setCol c vs
      | none => acc)
    out1

/-- SchemaResult from src/scoring/schema.py. -/
structure SchemaResult where
  df : DFrame
  missing_required : List String
  warnings : List String
deriving DecidableEq, Repr

/-- validate_and_coerce from src/scoring/schema.py.  The missing-required
list is computed from the mapped columns; account_id is added to it when
absent (the source materializes the Python set as a list in unspecified
order; dedup of the appended list has the same members, and nothing below
depends on the order).  account_id is stringified, known numeric columns
are coerced, the optional boolean flag and plan_tier are normalized.  The
account_id missing-value warning of the source compares isna on the
already-stringified column and therefore never fires; it is translated
as written. -/
def validateAccountStage (df_mapped : DFrame) : DFrame :=
  if df_mapped.hasCol "account_id" then
    df_mapped.mapCol "account_id" astypeStrCell
  else df_mapped

def validateMissing (df_mapped : DFrame) (required_fields : List String) :
    List String :=
  let missing0 := required_fields.filter (fun c => !(df_mapped.hasCol c))
  if df_mapped.hasCol "account_id" then missing0
  else (missing0 ++ ["account_id"]).dedup

def validateWarnings (df_mapped : DFrame) : List String :=
  if df_mapped.hasCol "account_id" then
    if (((validateAccountStage df_mapped).getCol "account_id").getD []).any
        Value.isna then
      ["Some account_id values are missing; they will be treated as 'nan' strings."]
    else []
  else []

def validateNumericStage (df : DFrame) : DFrame :=
  NUMERIC_LIKE.foldl
    (fun acc c => if acc.hasCol c then acc.mapCol c coerce_numeric_cell else acc)
    df

def validateSubStage (df : DFrame) : DFrame :=
  if df.hasCol "subscription_end_in_current_period" then
    df.mapCol "subscription_end_in_current_period" coerce_bool_cell
  else df

def validatePlanTierStage (df : DFrame) : DFrame :=
  if df.hasCol "plan_tier" then df.mapCol "plan_tier" coerce_plan_tier_cell
  else df

def validate_and_coerce (df_mapped : DFrame) (required_fields : List String) :
    SchemaResult :=
  { df := validatePlanTierStage (validateSubStage (validateNumericStage
      (validateAccountStage df_mapped))),
    missing_required := validateMissing df_mapped required_fields,
    warnings := validateWarnings df_mapped }

/-- fingerprint_input from src/scoring/schema.py, parameterized by the
process's string hash (Python hash is salted per process but fixed within
one).  The key is row count x column count, the joined column names, and
the first-5/last-5 stringified account_id values when that column
exists. -/
def fingerprint_input (h : String → ℤ) (df : DFrame) : String :=
  let cols := String.intercalate "|" df.colNames
  let head_ids :=
    if df.hasCol "account_id" then
      let ids := ((df.getCol "account_id").getD []).map valueToStr
      String.intercalate "|" (ids.take 5) ++ "|" ++
        String.intercalate "|" (ids.drop (ids.length - 5))
    else ""
  let key := toString df.nrows ++ "x" ++ toString df.cols.length ++ "::" ++
    cols ++ "::" ++ head_ids
  toString (h key).natAbs

/-! Definitions from src/scoring/features.py. -/

/-- model_feature_columns from src/scoring/features.py: the canonical
feature list shared by training and scoring. -/
def model_feature_columns : List String :=
  ["usage_delta", "tickets_delta", "seats_current", "arr_current",
   "usage_drop_flag", "subscription_end_in_quarter",
   "satisfaction_missing_flag", "contract_missing_flag",
   "avg_satisfaction", "plan_tier"]

/-- The helper _to_numeric from src/scoring/features.py: on None (an
absent column fetched with .get) it returns an empty series; on a series
it coerces cell-wise. -/
def toNumericOpt : Option (List Value) → List Value
  | none => []
  | some vs => vs.map toNumericCell

/-- The inner helper _default_prev_to_current of build_features.  The
membership test runs against the original input frame df (the source
closes over df), while reads and writes go to out.  Assigning the result
of out.get of an absent current column (Python None) produces a column of
missing values. -/
def defaultPrevToCurrent (df out : DFrame) (prevCol curCol : String) : DFrame :=
  if !(df.hasCol prevCol) then
    match out.getCol curCol with
    | some vs => out.setCol prevCol vs
    | none => out.setCol prevCol (List.replicate out.nrows .nan)
  else
    match out.getCol prevCol with
    | some vs =>
        if vs.all Value.isna then
          match out.getCol curCol with
          | some cs => out.setCol prevCol cs
          | none => out.setCol prevCol (List.replicate out.nrows .nan)
        else out
    | none => out

/-- The column list of the ensure-base-columns loop of build_features. -/
def BASE_COLS : List String :=
  ["seats_current", "seats_prev", "arr_current", "arr_prev",
   "mrr_current", "mrr_prev", "seats", "arr_amount", "mrr_amount",
   "avg_satisfaction", "plan_tier", "usage_drop_flag",
   "subscription_end_in_quarter", "satisfaction_missing_flag",
   "contract_missing_flag", "churned"]

/-- The four binary risk-flag columns normalized by build_features. -/
def FLAG_COLS : List String :=
  ["usage_drop_flag", "subscription_end_in_quarter",
   "satisfaction_missing_flag", "contract_missing_flag"]

/-- The numeric-like derived columns re-asserted numeric at the end of
build_features. -/
def NUM_LIKE_FINAL : List String :=
  ["seats_delta", "arr_delta", "mrr_delta",
   "seats_pct_change", "arr_pct_change", "mrr_pct_change",
   "avg_satisfaction"]

/-- The helper _ensure_col from src/scoring/features.py. -/
def ensureCol (df : DFrame) (c : String) (default : Value) : DFrame :=
  if df.hasCol c then df else df.setCol c (List.replicate df.nrows default)

/-- Flag normalization: to_numeric, fillna(0), astype(int) on one cell. -/
def flagCell (v : Value) : Value := astypeIntCell (fillna0 (toNumericCell v))

/-- The delta derivation for arr and mrr: when the delta column is absent,
both sides are fetched with .get, coerced, and subtracted with missing
cells filled with 0; the all-NaN branch (a.empty and b.empty) triggers
only when both fetched series are empty, which for these columns (already
materialized by the earlier stages) means a zero-row frame. -/
def fillZeroDeltaStage (out : DFrame) (deltaCol curCol prevCol : String) : DFrame :=
  if out.hasCol deltaCol then out
  else
    let a := toNumericOpt (out.getCol curCol)
    let b := toNumericOpt (out.getCol prevCol)
    if a = [] ∧ b = [] then out.setCol deltaCol (List.replicate out.nrows .nan)
    else out.setCol deltaCol (List.zipWith (fun x y => vsub (fillna0 x) (fillna0 y)) a b)

/-- The percent-change derivation: when the column is absent, it is
safe_div of the coerced delta by the coerced previous column. -/
def pctChangeStage (out : DFrame) (pctCol deltaCol prevCol : String) : DFrame :=
  if out.hasCol pctCol then out
  else
    out.setCol pctCol
      (List.zipWith safeDiv (toNumericOpt (out.getCol deltaCol))
        (toNumericOpt (out.getCol prevCol)))

/-- The fill value of the canonical-feature completion loop: 0 for flags,
"Unknown" for plan_tier, NaN otherwise. -/
def completeDefault (c : String) : Value :=
  if endsWithStr c "_flag" || FLAG_COLS.contains c then .num 0
  else if c = "plan_tier" then .str "Unknown"
  else .nan

/-- The final canonical-feature completion loop: absent canonical columns
are filled with their completeDefault. -/
def completeStep (acc : DFrame) (c : String) : DFrame :=
  if acc.hasCol c then acc
  else acc.setCol c (List.replicate acc.nrows (completeDefault c))

/-- build_features stage 1: previous-period default-filling for the three
(prev, current) pairs, in source order. -/
def bfStage1 (df : DFrame) : DFrame :=
  defaultPrevToCurrent df
    (defaultPrevToCurrent df
      (defaultPrevToCurrent df df "seats_prev" "seats_current")
      "arr_prev" "arr_current")
    "mrr_prev" "mrr_current"

/-- Stage 2: ensure all base columns exist (default NaN). -/
def bfStage2 (df : DFrame) : DFrame :=
  BASE_COLS.foldl (fun acc c => ensureCol acc c .nan) (bfStage1 df)

/-- Stage 3: flag normalization (to_numeric, fillna 0, astype int).  The
astype("object") on plan_tier before it is the identity on this cell
domain. -/
def bfStage3 (df : DFrame) : DFrame :=
  FLAG_COLS.foldl (fun acc c => acc.mapCol c flagCell) (bfStage2 df)

/-- Stage 4: avg_satisfaction numeric coercion. -/
def bfStage4 (df : DFrame) : DFrame :=
  (bfStage3 df).mapCol "avg_satisfaction" toNumericCell

/-- Stage 5: seats_delta derivation (plain subtraction, no fillna). -/
def bfStage5 (df : DFrame) : DFrame :=
  let out := bfStage4 df
  if out.hasCol "seats_delta" then out
  else
    out.setCol "seats_delta"
      (List.zipWith vsub (toNumericOpt (out.getCol "seats_current"))
        (toNumericOpt (out.getCol "seats_prev")))

/-- Stage 6: arr_delta and mrr_delta with fill-with-zero semantics. -/
def bfStage6 (df : DFrame) : DFrame :=
  fillZeroDeltaStage
    (fillZeroDeltaStage (bfStage5 df) "arr_delta" "arr_current" "arr_prev")
    "mrr_delta" "mrr_current" "mrr_prev"

/-- Stage 7: the three percent changes via safe_div. -/
def bfStage7 (df : DFrame) : DFrame :=
  pctChangeStage
    (pctChangeStage
      (pctChangeStage (bfStage6 df) "seats_pct_change" "seats_delta" "seats_prev")
      "arr_pct_change" "arr_delta" "arr_prev")
    "mrr_pct_change" "mrr_delta" "mrr_prev"

/-- Stage 8: canonical feature-list completion. -/
def bfStage8 (df : DFrame) : DFrame :=
  model_feature_columns.foldl completeStep (bfStage7 df)

/-- build_features from src/scoring/features.py: the stages above in
source order, ending with the numeric re-assertion on the derived
columns. -/
def build_features (df : DFrame) : DFrame :=
  NUM_LIKE_FINAL.foldl (fun acc c => acc.mapCol c toNumericCell) (bfStage8 df)

/-! Definitions from src/scoring/scoring.py. -/

/-- risk_tier_from_prob: fixed thresholds 0.50 and 0.35 (np.where chain in
src/scoring/scoring.py, identical scalar chain in src/scoring/predict.py). -/
def risk_tier_from_prob (p : ℚ) : String :=
  if mkRat 1 2 ≤ p then "High"
  else if mkRat 7 20 ≤ p then "Medium"
  else "Low"

/-- churn_timeline_from_prob: the same thresholds mapped to buckets. -/
def churn_timeline_from_prob (p : ℚ) : String :=
  if mkRat 1 2 ≤ p then "0–90 days"
  else if mkRat 7 20 ≤ p then "3–6 months"
  else "6–12 months"

/-- Banker's rounding (numpy round-half-to-even), used for risk_score. -/
def roundHalfEven (q : ℚ) : ℤ :=
  let n := Int.fdiv q.num q.den
  let frac := qsub q (Rat.divInt n 1)
  if frac < mkRat 1 2 then n
  else if mkRat 1 2 < frac then n + 1
  else if n % 2 = 0 then n else n + 1

/-- One row of a frame, as the association list a pandas iterrows row
presents (row index i; cells of short columns read as missing). -/
def DFrame.row (df : DFrame) (i : ℕ) : List (String × Value) :=
  df.cols.map (fun p => (p.1, (p.2).getD i .nan))

/-- row.get(key, default). -/
def rowGet (row : List (String × Value)) (c : String) (d : Value) : Value :=
  match row.find? (fun p => p.1 == c) with
  | some p => p.2
  | none => d

/-- Python == against the int 1: only the numeric value 1 compares equal
(NaN and strings compare unequal without error). -/
def veq1 : Value → Bool
  | .num q => q == 1
  | _ => false

/-- Python > against the float 0.3: false for NaN.  A string operand would
raise a TypeError in the source; the claims below are stated for rows
whose tickets_pct_change cell is not a string. -/
def vgt3of10 : Value → Bool
  | .num q => mkRat 3 10 < q
  | _ => false

/-- driver_rules from src/scoring/scoring.py: four independent appends in
fixed order, a fallback pair when nothing fired, and truncation to the
first three entries. -/
def driver_rules (row : List (String × Value)) : List String × List String :=
  let drivers : List String := []
  let actions : List String := []
  let da :=
    if veq1 (rowGet row "usage_drop_flag" (.num 0)) then
      (drivers ++ ["Usage decline"],
       actions ++ ["Run re-engagement campaign + in-product training"])
    else (drivers, actions)
  let da :=
    if veq1 (rowGet row "tickets_spike_flag" (.num 0)) ||
        vgt3of10 (rowGet row "tickets_pct_change" (.num 0)) then
      (da.1 ++ ["Support pressure rising"],
       da.2 ++ ["Proactive support outreach + escalation review"])
    else da
  let da :=
    if veq1 (rowGet row "contract_ending_soon_flag" (.num 0)) then
      (da.1 ++ ["Contract ending soon"],
       da.2 ++ ["Start renewal outreach and confirm success plan"])
    else da
  let da :=
    if veq1 (rowGet row "downsell_flag" (.num 0)) then
      (da.1 ++ ["Commercial contraction"],
       da.2 ++ ["Commercial check-in: seats/value alignment"])
    else da
  let da :=
    if da.1 = [] then
      (["No dominant trigger (monitor)"],
       ["Continue monitoring; reassess if new signals appear"])
    else da
  (da.1.take 3, da.2.take 3)

/-- The mapped-and-validated schema result of a scoring call. -/
def schemaOf (df_input : DFrame) (mapping : List (String × String)) : SchemaResult :=
  validate_and_coerce (apply_mapping df_input mapping) REQUIRED_FIELDS

/-- The engineered feature frame of a scoring call. -/
def featuresOf (df_input : DFrame) (mapping : List (String × String)) : DFrame :=
  build_features (schemaOf df_input mapping).df

/-- The model input X = fe[model_feature_columns]. -/
def modelInputOf (df_input : DFrame) (mapping : List (String × String)) : DFrame :=
  selectCols (featuresOf df_input mapping) model_feature_columns

/-- The context columns kept in the output view when present. -/
def CONTEXT_COLS : List String :=
  ["plan_tier", "industry", "company_size", "seats_current", "arr_current"]

/-- score_dataframe from src/scoring/scoring.py, parameterized by the
loaded model's predict_proba positive-class column (one probability per
row of X).  The missing-required check raises a ValueError whose message
interpolates exactly the missing_required list; that raise is modelled as
Except.error carrying the list, and it happens before the model is read
or applied. -/
def score_dataframe (model : DFrame → List ℚ) (df_input : DFrame)
    (mapping : List (String × String)) : Except (List String) DFrame :=
  let schema_res := schemaOf df_input mapping
  if schema_res.missing_required ≠ [] then
    Except.error schema_res.missing_required
  else
    let fe := build_features schema_res.df
    let X := selectCols fe model_feature_columns
    let proba := model X
    let out := fe.setCol "churn_probability" (proba.map (fun p => Value.num p))
    let out := out.setCol "risk_score"
      (proba.map (fun p => Value.num (Rat.divInt (roundHalfEven (qmul p (mkRat 100 1))) 1)))
    let out := out.setCol "risk_tier"
      (proba.map (fun p => Value.str (risk_tier_from_prob p)))
    let out := out.setCol "churn_timeline"
      (proba.map (fun p => Value.str (churn_timeline_from_prob p)))
    let rows := (List.range out.nrows).map (fun i => out.row i)
    let out := out.setCol "top_drivers"
      (rows.map (fun r => Value.str (String.intercalate ", " (driver_rules r).1)))
    let out := out.setCol "recommended_actions"
      (rows.map (fun r => Value.str (String.intercalate ", " (driver_rules r).2)))
    let keep_context := CONTEXT_COLS.filter (fun c => out.hasCol c)
    let output_cols := ["account_id"] ++ keep_context ++
      ["churn_probability", "risk_score", "risk_tier", "churn_timeline",
       "top_drivers", "recommended_actions"]
    Except.ok (selectCols out output_cols)

/-! Claim theorems. -/

theorem mkRat_half_eq : (mkRat 1 2 : ℚ) = 1/2 := by
  rw [Rat.mkRat_eq_div]
  norm_num

theorem mkRat_7_20_eq : (mkRat 7 20 : ℚ) = 7/20 := by
  rw [Rat.mkRat_eq_div]
  norm_num

/-- C2.  For every probability p in the unit interval, risk_tier_from_prob
is "High" iff p is at least 0.50, "Medium" iff p is in [0.35, 0.50), and
"Low" otherwise; churn_timeline_from_prob maps the same bands to
"0–90 days", "3–6 months" and "6–12 months"; the boundary values 0.50 and
0.35 resolve to the higher tier and bucket. -/
theorem C2_risk_tier_and_timeline_thresholds (p : ℚ) (h0 : 0 ≤ p) (h1 : p ≤ 1) :
    (risk_tier_from_prob p = "High" ↔ 1/2 ≤ p) ∧
    (risk_tier_from_prob p = "Medium" ↔ 7/20 ≤ p ∧ p < 1/2) ∧
    (risk_tier_from_prob p = "Low" ↔ p < 7/20) ∧
    (churn_timeline_from_prob p = "0–90 days" ↔ 1/2 ≤ p) ∧
    (churn_timeline_from_prob p = "3–6 months" ↔ 7/20 ≤ p ∧ p < 1/2) ∧
    (churn_timeline_from_prob p = "6–12 months" ↔ p < 7/20) ∧
    risk_tier_from_prob (1/2) = "High" ∧
    risk_tier_from_prob (7/20) = "Medium" ∧
    churn_timeline_from_prob (1/2) = "0–90 days" ∧
    churn_timeline_from_prob (7/20) = "3–6 months" := by
  unfold risk_tier_from_prob churn_timeline_from_prob
  rw [mkRat_half_eq, mkRat_7_20_eq]
  refine ⟨?_, ?_, ?_, ?_, ?_, ?_, ?_, ?_, ?_, ?_⟩
  · split_ifs with hA hB <;> simp_all <;> linarith
  · split_ifs with hA hB <;> simp_all <;> intro h <;> linarith
  · split_ifs with hA hB <;> simp_all <;> linarith
  · split_ifs with hA hB <;> simp_all <;> linarith
  · split_ifs with hA hB <;> simp_all <;> intro h <;> linarith
  · split_ifs with hA hB <;> simp_all <;> linarith
  · rw [if_pos le_rfl]
  · rw [if_neg (by norm_num), if_pos le_rfl]
  · rw [if_pos le_rfl]
  · rw [if_neg (by norm_num), if_pos le_rfl]

/-- Witness for C2 at the boundary probability 0.35. -/
theorem C2_witness :
    (0 : ℚ) ≤ 7/20 ∧ (7/20 : ℚ) ≤ 1 ∧
    (risk_tier_from_prob (7/20) = "Medium" ↔ (7/20 : ℚ) ≤ 7/20 ∧ (7/20 : ℚ) < 1/2) :=
  ⟨by norm_num, by norm_num,
    (C2_risk_tier_and_timeline_thresholds (7/20) (by norm_num) (by norm_num)).2.1⟩

theorem getCol_condMap_ne (df : DFrame) (c c' : String) (f : Value → Value)
    (h : c' ≠ c) :
    (if df.hasCol c then df.mapCol c f else df).getCol c' = df.getCol c' := by
  cases hc : df.hasCol c <;> simp [hc, getCol_mapCol_ne _ _ _ _ h]

theorem hasCol_condMap (df : DFrame) (c c' : String) (f : Value → Value) :
    (if df.hasCol c then df.mapCol c f else df).hasCol c' = df.hasCol c' := by
  cases hc : df.hasCol c <;> simp [hc, hasCol_mapCol]

theorem nrows_condMap (df : DFrame) (c : String) (f : Value → Value) :
    (if df.hasCol c then df.mapCol c f else df).nrows = df.nrows := by
  cases hc : df.hasCol c <;> simp [hc]

/-- Membership in the missing_required list produced by validate_and_coerce:
exactly the required fields absent from the mapped columns, with account_id
treated as required even when it is not in the nominal list. -/
theorem validate_missing_mem (dfm : DFrame) (req : List String) (f : String) :
    f ∈ (validate_and_coerce dfm req).missing_required ↔
      (f ∈ req ∧ dfm.hasCol f = false) ∨
      (f = "account_id" ∧ dfm.hasCol "account_id" = false) := by
  have hmain : (validate_and_coerce dfm req).missing_required =
      if dfm.hasCol "account_id" then req.filter (fun c => !(dfm.hasCol c))
      else ((req.filter (fun c => !(dfm.hasCol c))) ++ ["account_id"]).dedup := by
    unfold validate_and_coerce validateMissing
    cases hacc : dfm.hasCol "account_id" <;> simp [hacc]
  rw [hmain]
  cases hacc : dfm.hasCol "account_id"
  · rw [if_neg (by simp)]
    simp only [List.mem_dedup, List.mem_append, List.mem_filter,
      List.mem_singleton]
    constructor
    · rintro (⟨h1, h2⟩ | h1)
      · exact Or.inl ⟨h1, by simpa using h2⟩
      · exact Or.inr ⟨h1, by simp⟩
    · rintro (⟨h1, h2⟩ | ⟨h1, h2⟩)
      · exact Or.inl ⟨h1, by simp [h2]⟩
      · exact Or.inr h1
  · rw [if_pos rfl]
    simp only [List.mem_filter]
    constructor
    · rintro ⟨h1, h2⟩
      exact Or.inl ⟨h1, by simpa using h2⟩
    · rintro (⟨h1, h2⟩ | ⟨h1, h2⟩)
      · exact ⟨h1, by simp [h2]⟩
      · exact absurd h2 (by simp)

/-- C1.  When any required canonical field (account_id being implicitly
required) is absent from the mapped table's columns, score_dataframe fails
with the schema error carrying exactly the missing field names, the result
does not depend on the model (the model is never loaded or invoked), and
no scored frame is produced. -/
theorem C1_missing_required_blocks_scoring
    (model model2 : DFrame → List ℚ) (df : DFrame)
    (mapping : List (String × String)) (f : String)
    (hf : f ∈ "account_id" :: REQUIRED_FIELDS)
    (habs : (apply_mapping df mapping).hasCol f = false) :
    ∃ miss, score_dataframe model df mapping = Except.error miss ∧ miss ≠ [] ∧
      (∀ g, g ∈ miss ↔
        g ∈ "account_id" :: REQUIRED_FIELDS ∧
          (apply_mapping df mapping).hasCol g = false) ∧
      score_dataframe model df mapping = score_dataframe model2 df mapping := by
  have haccreq : "account_id" ∈ REQUIRED_FIELDS := by decide
  have hfreq : f ∈ REQUIRED_FIELDS := by
    rcases List.mem_cons.mp hf with h1 | h1
    · rw [h1]; exact haccreq
    · exact h1
  have hne : (schemaOf df mapping).missing_required ≠ [] := by
    intro hnil
    have : f ∈ (schemaOf df mapping).missing_required := by
      rw [schemaOf, validate_missing_mem]
      exact Or.inl ⟨hfreq, habs⟩
    rw [hnil] at this
    cases this
  refine ⟨(schemaOf df mapping).missing_required, ?_, hne, ?_, ?_⟩
  · unfold score_dataframe
    rw [if_pos hne]
  · intro g
    rw [schemaOf, validate_missing_mem]
    constructor
    · intro hmem
      rcases hmem with ⟨h1, h2⟩ | ⟨h1, h2⟩
      · exact ⟨List.mem_cons_of_mem _ h1, h2⟩
      · rw [h1]
        exact ⟨List.mem_cons_self _ _, h2⟩
    · intro ⟨h1, h2⟩
      rcases List.mem_cons.mp h1 with h3 | h3
      · rw [h3] at h2 ⊢
        exact Or.inl ⟨haccreq, h2⟩
      · exact Or.inl ⟨h3, h2⟩
  · unfold score_dataframe
    rw [if_pos hne, if_pos hne]

/-- Concrete frame with a single unrelated column, used as the C1 witness
input: every required field is unmapped. -/
def c1Frame : DFrame := { nrows := 1, cols := [("foo", [.str "x"])] }

/-- A model stub for witnesses; never invoked on the error path. -/
def zeroModel : DFrame → List ℚ := fun _ => []

/-- A second model stub, to witness model-independence of the error path. -/
def oneModel : DFrame → List ℚ := fun _ => [mkRat 1 1]

/-- Witness for C1: scoring c1Frame with an empty mapping fails with the
missing-field error, independently of the model. -/
theorem C1_witness :
    ("account_id" ∈ ("account_id" :: REQUIRED_FIELDS)) ∧
    (apply_mapping c1Frame []).hasCol "account_id" = false ∧
    ∃ miss, score_dataframe zeroModel c1Frame [] = Except.error miss ∧ miss ≠ [] ∧
      (∀ g, g ∈ miss ↔
        g ∈ "account_id" :: REQUIRED_FIELDS ∧
          (apply_mapping c1Frame []).hasCol g = false) ∧
      score_dataframe zeroModel c1Frame [] = score_dataframe oneModel c1Frame [] :=
  ⟨List.mem_cons_self _ _, by decide,
    C1_missing_required_blocks_scoring zeroModel oneModel c1Frame [] "account_id"
      (List.mem_cons_self _ _) (by decide)⟩

/-- The rule table of the Explanation Engine as an ordered list of fired
(driver, action) pairs, one entry per condition that holds, in the fixed
priority order of the source. -/
def rulePairs (row : List (String × Value)) : List (String × String) :=
  (if veq1 (rowGet row "usage_drop_flag" (.num 0)) then
    [("Usage decline", "Run re-engagement campaign + in-product training")]
   else []) ++
  (if veq1 (rowGet row "tickets_spike_flag" (.num 0)) ||
      vgt3of10 (rowGet row "tickets_pct_change" (.num 0)) then
    [("Support pressure rising", "Proactive support outreach + escalation review")]
   else []) ++
  (if veq1 (rowGet row "contract_ending_soon_flag" (.num 0)) then
    [("Contract ending soon", "Start renewal outreach and confirm success plan")]
   else []) ++
  (if veq1 (rowGet row "downsell_flag" (.num 0)) then
    [("Commercial contraction", "Commercial check-in: seats/value alignment")]
   else [])

/-- C9.  driver_rules evaluates the four conditions in fixed order and
appends each fired pair independently; when nothing fires, the single
monitor pair is returned; otherwise the drivers and actions are the fired
pairs truncated to the first three, so both lists always have between one
and three entries; a fully missing row (all flag columns absent) falls
back to the monitor pair without error.  The theorem is stated for rows
whose tickets_pct_change cell is not a string (a string there would raise
a TypeError in the source comparison). -/
theorem C9_driver_rules_table (row : List (String × Value))
    (hnostr : (rowGet row "tickets_pct_change" (.num 0)).isStr = false) :
    ((rulePairs row = [] →
        driver_rules row =
          (["No dominant trigger (monitor)"],
           ["Continue monitoring; reassess if new signals appear"])) ∧
     (rulePairs row ≠ [] →
        driver_rules row =
          (((rulePairs row).map Prod.fst).take 3,
           ((rulePairs row).map Prod.snd).take 3)) ∧
     1 ≤ (driver_rules row).1.length ∧ (driver_rules row).1.length ≤ 3 ∧
     1 ≤ (driver_rules row).2.length ∧ (driver_rules row).2.length ≤ 3) ∧
    driver_rules [] =
      (["No dominant trigger (monitor)"],
       ["Continue monitoring; reassess if new signals appear"]) := by
  constructor
  · unfold driver_rules rulePairs
    cases h1 : veq1 (rowGet row "usage_drop_flag" (.num 0)) <;>
    cases h2 : (veq1 (rowGet row "tickets_spike_flag" (.num 0)) ||
        vgt3of10 (rowGet row "tickets_pct_change" (.num 0))) <;>
    cases h3 : veq1 (rowGet row "contract_ending_soon_flag" (.num 0)) <;>
    cases h4 : veq1 (rowGet row "downsell_flag" (.num 0)) <;>
      simp
  · rfl

/-- Concrete row for the C9 witness: usage drop fired and ticket pressure
fired via the percent-change branch. -/
def c9Row : List (String × Value) :=
  [("usage_drop_flag", .num 1), ("tickets_pct_change", .num (mkRat 1 2))]

/-- Witness for C9 at c9Row: two conditions fire, both output lists have
two entries. -/
theorem C9_witness :
    (rowGet c9Row "tickets_pct_change" (.num 0)).isStr = false ∧
    (rulePairs c9Row ≠ [] →
      driver_rules c9Row =
        (((rulePairs c9Row).map Prod.fst).take 3,
         ((rulePairs c9Row).map Prod.snd).take 3)) ∧
    1 ≤ (driver_rules c9Row).1.length ∧ (driver_rules c9Row).1.length ≤ 3 :=
  ⟨by decide,
   ((C9_driver_rules_table c9Row (by decide)).1).2.1,
   ((C9_driver_rules_table c9Row (by decide)).1).2.2.1,
   ((C9_driver_rules_table c9Row (by decide)).1).2.2.2.1⟩

/-- hasCol is determined by the ordered list of column names. -/
theorem hasCol_eq_colNames_any (df : DFrame) (c : String) :
    df.hasCol c = df.colNames.any (fun n => n == c) := by
  unfold DFrame.hasCol DFrame.colNames
  induction df.cols with
  | nil => rfl
  | cons p rest ih =>
      simp only [List.any_cons, List.map_cons]
      rw [ih]

/-- C10.  fingerprint_input depends only on the row count, the column
count, the ordered column names, and the stringified first-5/last-5
account_id values when that column exists: two frames agreeing on those
components fingerprint identically (for any per-process string hash),
whatever their other cell values. -/
theorem C10_fingerprint_agreement (h : String → ℤ) (df1 df2 : DFrame)
    (hn : df1.nrows = df2.nrows)
    (hc : df1.colNames = df2.colNames)
    (hhead : (((df1.getCol "account_id").getD []).take 5) =
      (((df2.getCol "account_id").getD []).take 5))
    (htail :
      (((df1.getCol "account_id").getD []).drop
          (((df1.getCol "account_id").getD []).length - 5)) =
        (((df2.getCol "account_id").getD []).drop
          (((df2.getCol "account_id").getD []).length - 5))) :
    fingerprint_input h df1 = fingerprint_input h df2 := by
  unfold fingerprint_input
  have hcount : df1.cols.length = df2.cols.length := by
    have := congrArg List.length hc
    simpa [DFrame.colNames] using this
  have hpres : df1.hasCol "account_id" = df2.hasCol "account_id" := by
    rw [hasCol_eq_colNames_any, hasCol_eq_colNames_any, hc]
  have hids : (((df1.getCol "account_id").getD []).map valueToStr).take 5 =
      (((df2.getCol "account_id").getD []).map valueToStr).take 5 := by
    rw [← List.map_take, ← List.map_take, hhead]
  have htidsl : (((df1.getCol "account_id").getD []).map valueToStr).drop
      ((((df1.getCol "account_id").getD []).map valueToStr).length - 5) =
      (((df2.getCol "account_id").getD []).map valueToStr).drop
      ((((df2.getCol "account_id").getD []).map valueToStr).length - 5) := by
    rw [← List.map_drop, ← List.map_drop, List.length_map, List.length_map, htail]
  rw [hn, hc, hcount, hpres]
  cases hp : df2.hasCol "account_id"
  · simp
  · simp only [if_pos rfl]
    rw [hids, htidsl]

/-- Frames for the C10 witness: same shape, names and boundary ids, but a
different seats cell. -/
def c10Frame1 : DFrame :=
  { nrows := 2,
    cols := [("account_id", [.str "A", .str "B"]),
             ("seats_current", [.num 10, .num 5])] }

def c10Frame2 : DFrame :=
  { nrows := 2,
    cols := [("account_id", [.str "A", .str "B"]),
             ("seats_current", [.num 99, .num 5])] }

/-- Witness for C10: the two frames differ in a seats cell yet share a
fingerprint under an arbitrary concrete hash. -/
theorem C10_witness :
    c10Frame1.nrows = c10Frame2.nrows ∧
    c10Frame1.colNames = c10Frame2.colNames ∧
    c10Frame1 ≠ c10Frame2 ∧
    fingerprint_input (fun _ => 7) c10Frame1 =
      fingerprint_input (fun _ => 7) c10Frame2 :=
  ⟨rfl, rfl, by decide,
   C10_fingerprint_agreement (fun _ => 7) c10Frame1 c10Frame2 rfl rfl
     (by decide) (by decide)⟩

theorem getCol_foldl_condMap_not_mem (l : List String) (f : Value → Value)
    (df : DFrame) (c : String) (hc : c ∉ l) :
    (l.foldl (fun acc x => if acc.hasCol x then acc.mapCol x f else acc)
      df).getCol c = df.getCol c := by
  induction l generalizing df with
  | nil => rfl
  | cons a as ih =>
      rw [List.foldl_cons, ih _ (fun h => hc (List.mem_cons_of_mem _ h))]
      exact getCol_condMap_ne df a c f (fun h => hc (h ▸ List.mem_cons_self _ _))

theorem hasCol_foldl_condMap (l : List String) (f : Value → Value)
    (df : DFrame) (c : String) :
    (l.foldl (fun acc x => if acc.hasCol x then acc.mapCol x f else acc)
      df).hasCol c = df.hasCol c := by
  induction l generalizing df with
  | nil => rfl
  | cons a as ih =>
      rw [List.foldl_cons, ih, hasCol_condMap]

theorem nrows_foldl_condMap (l : List String) (f : Value → Value) (df : DFrame) :
    (l.foldl (fun acc x => if acc.hasCol x then acc.mapCol x f else acc)
      df).nrows = df.nrows := by
  induction l generalizing df with
  | nil => rfl
  | cons a as ih =>
      rw [List.foldl_cons, ih, nrows_condMap]

/-- After validate_and_coerce, the optional boolean column is exactly the
cell-wise coerce_bool image of the mapped column. -/
theorem validate_getCol_sub (dfm : DFrame) (req : List String)
    (hsub : dfm.hasCol "subscription_end_in_current_period" = true) :
    (validate_and_coerce dfm req).df.getCol "subscription_end_in_current_period" =
      (dfm.getCol "subscription_end_in_current_period").map
        (List.map coerce_bool_cell) := by
  have hacc_get : (validateAccountStage dfm).getCol
      "subscription_end_in_current_period" =
      dfm.getCol "subscription_end_in_current_period" := by
    unfold validateAccountStage
    exact getCol_condMap_ne dfm "account_id" _ _ (by simp)
  have hacc_has : (validateAccountStage dfm).hasCol
      "subscription_end_in_current_period" =
      dfm.hasCol "subscription_end_in_current_period" := by
    unfold validateAccountStage
    exact hasCol_condMap dfm "account_id" _ _
  have hnum_get : (validateNumericStage (validateAccountStage dfm)).getCol
      "subscription_end_in_current_period" =
      dfm.getCol "subscription_end_in_current_period" := by
    unfold validateNumericStage
    rw [getCol_foldl_condMap_not_mem _ _ _ _ (by decide)]
    exact hacc_get
  have hnum_has : (validateNumericStage (validateAccountStage dfm)).hasCol
      "subscription_end_in_current_period" = true := by
    unfold validateNumericStage
    rw [hasCol_foldl_condMap, hacc_has]
    exact hsub
  simp only [validate_and_coerce]
  unfold validatePlanTierStage
  rw [getCol_condMap_ne _ "plan_tier" _ _ (by simp)]
  unfold validateSubStage
  rw [if_pos hnum_has, getCol_mapCol_self, hnum_get]

/-- C8 as stated: after validation the boolean-like column would hold only
the exact integers 0 and 1. -/
def ClaimC8 : Prop :=
  ∀ (dfm : DFrame) (req : List String) (vs : List Value),
    dfm.hasCol "subscription_end_in_current_period" = true →
    (validate_and_coerce dfm req).df.getCol "subscription_end_in_current_period" =
      some vs →
    ∀ v ∈ vs, v = .num 0 ∨ v = .num 1

/-- Concrete mapped frame for the C8 counterexample: the boolean-like
column holds the token-free numeric string "5". -/
def c8Frame : DFrame :=
  { nrows := 1, cols := [("subscription_end_in_current_period", [.str "5"])] }

set_option maxRecDepth 4000 in
set_option maxHeartbeats 1000000 in
/-- Counterexample to C8: the numeric fallback of coerce_bool keeps the
value 5, so the validated column is not confined to 0/1. -/
theorem C8_counterexample : ¬ ClaimC8 := by
  intro h
  have h5 := h c8Frame [] [.num (mkRat 5 1)] (by decide)
    (by decide) (.num (mkRat 5 1)) (by decide)
  rcases h5 with h5 | h5 <;> exact absurd h5 (by decide)

/-- toNumericCell never yields a string cell. -/
theorem toNumericCell_not_str (v : Value) : (toNumericCell v).isStr = false := by
  cases v with
  | num q => rfl
  | nan => rfl
  | str s =>
      simp only [toNumericCell]
      cases parseRat s <;> rfl

/-- Closed-form description of coerce_bool_cell: token matches first, then
the numeric fallback truncated to int, then the default 0. -/
theorem coerce_bool_cell_eq (v : Value) :
    coerce_bool_cell v =
      if lowerStr (trimStr (valueToStr v)) ∈ TRUE_STR then Value.num 1
      else if lowerStr (trimStr (valueToStr v)) ∈ FALSE_STR then Value.num 0
      else
        match toNumericCell v with
        | .num q => .num (Rat.divInt (ratTrunc q) 1)
        | _ => .num 0 := by
  have h1 : Rat.divInt (ratTrunc 1) 1 = (1 : ℚ) := by decide
  have h0 : Rat.divInt (ratTrunc 0) 1 = (0 : ℚ) := by decide
  unfold coerce_bool_cell
  by_cases ht : lowerStr (trimStr (valueToStr v)) ∈ TRUE_STR
  · simp only [ht, if_pos]
    simpa [Value.isna, fillna0, astypeIntCell] using congrArg Value.num h1
  · simp only [ht, if_neg, if_false]
    by_cases hf : lowerStr (trimStr (valueToStr v)) ∈ FALSE_STR
    · simp only [hf, if_pos]
      simpa [Value.isna, fillna0, astypeIntCell] using congrArg Value.num h0
    · simp only [hf, if_neg, if_false]
      cases hn : toNumericCell v with
      | num q =>
          simp [Value.isna, fillna0, astypeIntCell]
      | nan =>
          simpa [Value.isna, fillna0, astypeIntCell] using congrArg Value.num h0
      | str s =>
          exact absurd (congrArg Value.isStr hn) (by
            rw [toNumericCell_not_str]
            simp [Value.isStr])

/-- C8 amended.  After validate_and_coerce the boolean-like column is the
cell-wise coerce_bool image of the raw column; every resulting cell is an
exact integer (never missing), with case-insensitive true-tokens mapping
to 1, false-tokens to 0, non-token numerics falling back to their numeric
value truncated to int — which may lie outside 0/1 — and unresolvable
cells defaulting to 0. -/
theorem C8_amended (dfm : DFrame) (req : List String) (vs : List Value)
    (hsub : dfm.hasCol "subscription_end_in_current_period" = true)
    (hv : dfm.getCol "subscription_end_in_current_period" = some vs) :
    (validate_and_coerce dfm req).df.getCol "subscription_end_in_current_period" =
      some (vs.map coerce_bool_cell) ∧
    (∀ v : Value, ∃ n : ℤ, coerce_bool_cell v = .num (Rat.divInt n 1)) ∧
    (∀ v : Value, lowerStr (trimStr (valueToStr v)) ∈ TRUE_STR →
      coerce_bool_cell v = .num 1) ∧
    (∀ v : Value, lowerStr (trimStr (valueToStr v)) ∉ TRUE_STR →
      lowerStr (trimStr (valueToStr v)) ∈ FALSE_STR →
      coerce_bool_cell v = .num 0) ∧
    (∀ (v : Value) (q : ℚ), lowerStr (trimStr (valueToStr v)) ∉ TRUE_STR →
      lowerStr (trimStr (valueToStr v)) ∉ FALSE_STR →
      toNumericCell v = .num q →
      coerce_bool_cell v = .num (Rat.divInt (ratTrunc q) 1)) ∧
    (∀ v : Value, lowerStr (trimStr (valueToStr v)) ∉ TRUE_STR →
      lowerStr (trimStr (valueToStr v)) ∉ FALSE_STR →
      toNumericCell v = .nan →
      coerce_bool_cell v = .num 0) := by
  refine ⟨?_, ?_, ?_, ?_, ?_, ?_⟩
  · rw [validate_getCol_sub dfm req hsub, hv]
    rfl
  · intro v
    rw [coerce_bool_cell_eq]
    by_cases ht : lowerStr (trimStr (valueToStr v)) ∈ TRUE_STR
    · exact ⟨1, by simp [ht, show Rat.divInt 1 1 = (1:ℚ) by decide]⟩
    · by_cases hf : lowerStr (trimStr (valueToStr v)) ∈ FALSE_STR
      · exact ⟨0, by simp [ht, hf, show Rat.divInt 0 1 = (0:ℚ) by decide]⟩
      · cases hn : toNumericCell v with
        | num q => exact ⟨ratTrunc q, by simp [ht, hf, hn]⟩
        | nan => exact ⟨0, by simp [ht, hf, hn, show Rat.divInt 0 1 = (0:ℚ) by decide]⟩
        | str s =>
            exact absurd (congrArg Value.isStr hn) (by
              rw [toNumericCell_not_str]
              simp [Value.isStr])
  · intro v ht
    rw [coerce_bool_cell_eq, if_pos ht]
  · intro v ht hf
    rw [coerce_bool_cell_eq, if_neg ht, if_pos hf]
  · intro v q ht hf hn
    rw [coerce_bool_cell_eq, if_neg ht, if_neg hf, hn]
  · intro v ht hf hn
    rw [coerce_bool_cell_eq, if_neg ht, if_neg hf, hn]

/-- Concrete mapped frame for the C8 witness: tokens, a non-token numeric
string, garbage and a non-integral numeric. -/
def c8wFrame : DFrame :=
  { nrows := 5,
    cols := [("subscription_end_in_current_period",
      [.str " YES ", .str "no", .str "5", .str "blah", .num (mkRat 27 10)])] }

/-- Witness for C8 amended, evaluating the coercion on the five-cell
column. -/
theorem C8_amended_witness :
    c8wFrame.hasCol "subscription_end_in_current_period" = true ∧
    c8wFrame.getCol "subscription_end_in_current_period" =
      some [.str " YES ", .str "no", .str "5", .str "blah", .num (mkRat 27 10)] ∧
    (validate_and_coerce c8wFrame []).df.getCol
        "subscription_end_in_current_period" =
      some ([.str " YES ", .str "no", .str "5", .str "blah",
        .num (mkRat 27 10)].map coerce_bool_cell) :=
  ⟨by decide, by decide,
   (C8_amended c8wFrame [] _ (by decide) (by decide)).1⟩

/-! Stage lemmas for build_features. -/

theorem nrows_ensureCol (df : DFrame) (c : String) (v : Value) :
    (ensureCol df c v).nrows = df.nrows := by
  unfold ensureCol
  cases h : df.hasCol c <;> simp [h]

theorem getCol_ensureCol_ne (df : DFrame) (c c' : String) (v : Value)
    (h : c' ≠ c) : (ensureCol df c v).getCol c' = df.getCol c' := by
  unfold ensureCol
  cases hc : df.hasCol c
  · simp only [Bool.false_eq_true, if_false]
    exact getCol_setCol_ne df c c' _ h
  · simp

theorem getCol_ensureCol_of_hasCol (df : DFrame) (c : String) (v : Value)
    (h : df.hasCol c = true) : (ensureCol df c v).getCol c = df.getCol c := by
  unfold ensureCol
  simp [h]

theorem getCol_ensureCol_absent (df : DFrame) (c : String) (v : Value)
    (h : df.hasCol c = false) :
    (ensureCol df c v).getCol c = some (List.replicate df.nrows v) := by
  unfold ensureCol
  simp only [h, Bool.false_eq_true, if_false]
  exact getCol_setCol_self df c _

theorem hasCol_ensureCol (df : DFrame) (c c' : String) (v : Value) :
    (ensureCol df c v).hasCol c' = (df.hasCol c' || (c == c')) := by
  unfold ensureCol
  cases hc : df.hasCol c
  · simp only [Bool.false_eq_true, if_false]
    rw [hasCol_setCol]
    cases h1 : (c == c') <;> cases h2 : df.hasCol c' <;> simp
  · simp only [hc, if_true]
    cases hb : (c == c')
    · simp
    · have hcc : c' = c := (beq_iff_eq.mp hb).symm
      subst hcc
      simp [hc]

theorem WF_ensureCol (df : DFrame) (c : String) (v : Value) (hdf : df.WF) :
    (ensureCol df c v).WF := by
  unfold ensureCol
  cases hc : df.hasCol c
  · simp only [Bool.false_eq_true, if_false]
    exact WF_setCol df c _ hdf (List.length_replicate _ _)
  · simpa using hdf

/-- The ensure-columns fold: shape facts. -/
theorem nrows_ensureFold (l : List String) (df : DFrame) :
    (l.foldl (fun acc c => ensureCol acc c .nan) df).nrows = df.nrows := by
  induction l generalizing df with
  | nil => rfl
  | cons a as ih => rw [List.foldl_cons, ih, nrows_ensureCol]

theorem WF_ensureFold (l : List String) (df : DFrame) (hdf : df.WF) :
    (l.foldl (fun acc c => ensureCol acc c .nan) df).WF := by
  induction l generalizing df with
  | nil => exact hdf
  | cons a as ih => exact ih _ (WF_ensureCol _ _ _ hdf)

theorem hasCol_ensureFold (l : List String) (df : DFrame) (c : String) :
    (l.foldl (fun acc c => ensureCol acc c .nan) df).hasCol c =
      (df.hasCol c || l.contains c) := by
  induction l generalizing df with
  | nil => simp
  | cons a as ih =>
      rw [List.foldl_cons, ih, hasCol_ensureCol]
      by_cases hac : a = c
      · subst hac
        simp [List.contains_cons]
      · rw [beq_eq_false_iff_ne.mpr hac]
        simp [List.contains_cons, Ne.symm hac]

theorem getCol_ensureFold_of_hasCol (l : List String) (df : DFrame) (c : String)
    (h : df.hasCol c = true) :
    (l.foldl (fun acc c => ensureCol acc c .nan) df).getCol c = df.getCol c := by
  induction l generalizing df with
  | nil => rfl
  | cons a as ih =>
      rw [List.foldl_cons]
      by_cases ha : c = a
      · subst ha
        rw [ih _ (by rw [hasCol_ensureCol, h]; simp)]
        exact getCol_ensureCol_of_hasCol df c _ h
      · rw [ih _ (by rw [hasCol_ensureCol, h]; simp)]
        exact getCol_ensureCol_ne df a c _ ha

theorem getCol_ensureFold_not_mem (l : List String) (df : DFrame) (c : String)
    (h : c ∉ l) :
    (l.foldl (fun acc c => ensureCol acc c .nan) df).getCol c = df.getCol c := by
  induction l generalizing df with
  | nil => rfl
  | cons a as ih =>
      rw [List.foldl_cons, ih _ (fun hm => h (List.mem_cons_of_mem _ hm))]
      exact getCol_ensureCol_ne df a c _ (fun hh => h (hh ▸ List.mem_cons_self _ _))

theorem getCol_ensureFold_absent_mem (l : List String) (df : DFrame) (c : String)
    (hm : c ∈ l) (h : df.hasCol c = false) :
    (l.foldl (fun acc c => ensureCol acc c .nan) df).getCol c =
      some (List.replicate df.nrows .nan) := by
  induction l generalizing df with
  | nil => cases hm
  | cons a as ih =>
      rw [List.foldl_cons]
      by_cases ha : a = c
      · subst ha
        rw [getCol_ensureFold_of_hasCol _ _ _ (by rw [hasCol_ensureCol, h]; simp)]
        exact getCol_ensureCol_absent df a _ h
      · rcases List.mem_cons.mp hm with h1 | h1
        · exact absurd h1.symm ha
        · rw [ih _ h1 (by rw [hasCol_ensureCol, h, beq_eq_false_iff_ne.mpr ha]; rfl)]
          rw [nrows_ensureCol]

/-- The cell-wise map fold (flag normalization, final numeric assertion):
shape facts. -/
theorem nrows_mapFold (l : List String) (f : Value → Value) (df : DFrame) :
    (l.foldl (fun acc c => acc.mapCol c f) df).nrows = df.nrows := by
  induction l generalizing df with
  | nil => rfl
  | cons a as ih => rw [List.foldl_cons, ih, nrows_mapCol]

theorem WF_mapFold (l : List String) (f : Value → Value) (df : DFrame)
    (hdf : df.WF) : (l.foldl (fun acc c => acc.mapCol c f) df).WF := by
  induction l generalizing df with
  | nil => exact hdf
  | cons a as ih => exact ih _ (WF_mapCol _ _ _ hdf)

theorem hasCol_mapFold (l : List String) (f : Value → Value) (df : DFrame)
    (c : String) :
    (l.foldl (fun acc c => acc.mapCol c f) df).hasCol c = df.hasCol c := by
  induction l generalizing df with
  | nil => rfl
  | cons a as ih => rw [List.foldl_cons, ih, hasCol_mapCol]

theorem getCol_mapFold_not_mem (l : List String) (f : Value → Value)
    (df : DFrame) (c : String) (h : c ∉ l) :
    (l.foldl (fun acc c => acc.mapCol c f) df).getCol c = df.getCol c := by
  induction l generalizing df with
  | nil => rfl
  | cons a as ih =>
      rw [List.foldl_cons, ih _ (fun hm => h (List.mem_cons_of_mem _ hm))]
      exact getCol_mapCol_ne df a c f (fun hh => h (hh ▸ List.mem_cons_self _ _))

theorem getCol_mapFold_mem (l : List String) (f : Value → Value) (df : DFrame)
    (c : String) (hnd : l.Nodup) (hm : c ∈ l) :
    (l.foldl (fun acc c => acc.mapCol c f) df).getCol c =
      (df.getCol c).map (List.map f) := by
  induction l generalizing df with
  | nil => cases hm
  | cons a as ih =>
      rw [List.foldl_cons]
      by_cases ha : a = c
      · subst ha
        have hnotas : a ∉ as := (List.nodup_cons.mp hnd).1
        rw [getCol_mapFold_not_mem _ _ _ _ hnotas]
        exact getCol_mapCol_self df a f
      · rcases List.mem_cons.mp hm with h1 | h1
        · exact absurd h1.symm ha
        · rw [ih _ (List.nodup_cons.mp hnd).2 h1, getCol_mapCol_ne df a c f
            (fun hh => ha hh.symm)]

/-- The completion fold: shape facts. -/
theorem nrows_completeStep (df : DFrame) (c : String) :
    (completeStep df c).nrows = df.nrows := by
  unfold completeStep
  cases h : df.hasCol c <;> simp [h]

theorem nrows_compFold (l : List String) (df : DFrame) :
    (l.foldl completeStep df).nrows = df.nrows := by
  induction l generalizing df with
  | nil => rfl
  | cons a as ih => rw [List.foldl_cons, ih, nrows_completeStep]

theorem WF_completeStep (df : DFrame) (c : String) (hdf : df.WF) :
    (completeStep df c).WF := by
  unfold completeStep
  cases h : df.hasCol c
  · simp only [Bool.false_eq_true, if_false]
    exact WF_setCol df c _ hdf (List.length_replicate _ _)
  · simpa using hdf

theorem WF_compFold (l : List String) (df : DFrame) (hdf : df.WF) :
    (l.foldl completeStep df).WF := by
  induction l generalizing df with
  | nil => exact hdf
  | cons a as ih => exact ih _ (WF_completeStep _ _ hdf)

theorem hasCol_completeStep (df : DFrame) (c c' : String) :
    (completeStep df c).hasCol c' = (df.hasCol c' || (c == c')) := by
  unfold completeStep
  cases hc : df.hasCol c
  · simp only [Bool.false_eq_true, if_false]
    rw [hasCol_setCol]
    cases h1 : (c == c') <;> cases h2 : df.hasCol c' <;> simp
  · simp only [hc, if_true]
    cases hb : (c == c')
    · simp
    · have hcc : c' = c := (beq_iff_eq.mp hb).symm
      subst hcc
      simp [hc]

theorem getCol_completeStep_ne (df : DFrame) (c c' : String) (h : c' ≠ c) :
    (completeStep df c).getCol c' = df.getCol c' := by
  unfold completeStep
  cases hc : df.hasCol c
  · simp only [Bool.false_eq_true, if_false]
    exact getCol_setCol_ne df c c' _ h
  · simp

theorem getCol_completeStep_of_hasCol (df : DFrame) (c : String)
    (h : df.hasCol c = true) : (completeStep df c).getCol c = df.getCol c := by
  unfold completeStep
  simp [h]

theorem getCol_compFold_of_hasCol (l : List String) (df : DFrame) (c : String)
    (h : df.hasCol c = true) :
    (l.foldl completeStep df).getCol c = df.getCol c := by
  induction l generalizing df with
  | nil => rfl
  | cons a as ih =>
      rw [List.foldl_cons]
      by_cases ha : c = a
      · subst ha
        rw [ih _ (by rw [hasCol_completeStep, h]; simp)]
        exact getCol_completeStep_of_hasCol df c h
      · rw [ih _ (by rw [hasCol_completeStep, h]; simp)]
        exact getCol_completeStep_ne df a c ha

theorem getCol_compFold_not_mem (l : List String) (df : DFrame) (c : String)
    (h : c ∉ l) :
    (l.foldl completeStep df).getCol c = df.getCol c := by
  induction l generalizing df with
  | nil => rfl
  | cons a as ih =>
      rw [List.foldl_cons, ih _ (fun hm => h (List.mem_cons_of_mem _ hm))]
      exact getCol_completeStep_ne df a c (fun hh => h (hh ▸ List.mem_cons_self _ _))

theorem hasCol_compFold (l : List String) (df : DFrame) (c : String) :
    (l.foldl completeStep df).hasCol c = (df.hasCol c || l.contains c) := by
  induction l generalizing df with
  | nil => simp
  | cons a as ih =>
      rw [List.foldl_cons, ih, hasCol_completeStep]
      by_cases hac : a = c
      · subst hac
        simp [List.contains_cons]
      · rw [beq_eq_false_iff_ne.mpr hac]
        simp [List.contains_cons, Ne.symm hac]

theorem getCol_compFold_absent_mem (l : List String) (df : DFrame) (c : String)
    (hm : c ∈ l) (h : df.hasCol c = false) :
    (l.foldl completeStep df).getCol c =
      some (List.replicate df.nrows (completeDefault c)) := by
  induction l generalizing df with
  | nil => cases hm
  | cons a as ih =>
      rw [List.foldl_cons]
      by_cases ha : a = c
      · subst ha
        have hset : (completeStep df a).getCol a =
            some (List.replicate df.nrows (completeDefault a)) := by
          unfold completeStep
          simp only [h, Bool.false_eq_true, if_false]
          exact getCol_setCol_self df a _
        rw [getCol_compFold_of_hasCol _ _ _
          (by rw [hasCol_completeStep, h]; simp)]
        exact hset
      · rcases List.mem_cons.mp hm with h1 | h1
        · exact absurd h1.symm ha
        · rw [ih _ h1 (by rw [hasCol_completeStep, h, beq_eq_false_iff_ne.mpr ha]; rfl)]
          rw [nrows_completeStep]

/-! defaultPrevToCurrent lemmas. -/

theorem nrows_dptc (dfI out : DFrame) (p cu : String) :
    (defaultPrevToCurrent dfI out p cu).nrows = out.nrows := by
  unfold defaultPrevToCurrent
  cases h1 : dfI.hasCol p
  · simp only [Bool.not_false, if_true]
    cases out.getCol cu <;> simp
  · simp only [Bool.not_true, Bool.false_eq_true, if_false]
    cases hg : out.getCol p with
    | none => rfl
    | some vs =>
        cases hall : vs.all Value.isna
        · simp [hall]
        · simp only [hall, if_true]
          cases out.getCol cu <;> simp

theorem getCol_dptc_ne (dfI out : DFrame) (p cu c : String) (h : c ≠ p) :
    (defaultPrevToCurrent dfI out p cu).getCol c = out.getCol c := by
  unfold defaultPrevToCurrent
  cases h1 : dfI.hasCol p
  · simp only [Bool.not_false, if_true]
    cases out.getCol cu with
    | none => exact getCol_setCol_ne out p c _ h
    | some vs => exact getCol_setCol_ne out p c _ h
  · simp only [Bool.not_true, Bool.false_eq_true, if_false]
    cases hg : out.getCol p with
    | none => rfl
    | some vs =>
        cases hall : vs.all Value.isna
        · simp [hall]
        · simp only [hall, if_true]
          cases out.getCol cu with
          | none => exact getCol_setCol_ne out p c _ h
          | some cs => exact getCol_setCol_ne out p c _ h

theorem hasCol_dptc_ne (dfI out : DFrame) (p cu c : String) (h : c ≠ p) :
    (defaultPrevToCurrent dfI out p cu).hasCol c = out.hasCol c := by
  unfold defaultPrevToCurrent
  have hb : (p == c) = false := beq_eq_false_iff_ne.mpr (Ne.symm h)
  cases h1 : dfI.hasCol p
  · simp only [Bool.not_false, if_true]
    cases out.getCol cu with
    | none => rw [hasCol_setCol, hb]; simp
    | some vs => rw [hasCol_setCol, hb]; simp
  · simp only [Bool.not_true, Bool.false_eq_true, if_false]
    cases hg : out.getCol p with
    | none => rfl
    | some vs =>
        cases hall : vs.all Value.isna
        · simp [hall]
        · simp only [hall, if_true]
          cases out.getCol cu with
          | none => rw [hasCol_setCol, hb]; simp
          | some cs => rw [hasCol_setCol, hb]; simp

theorem WF_dptc (dfI out : DFrame) (p cu : String) (hdf : out.WF) :
    (defaultPrevToCurrent dfI out p cu).WF := by
  unfold defaultPrevToCurrent
  cases h1 : dfI.hasCol p
  · simp only [Bool.not_false, if_true]
    cases hg : out.getCol cu with
    | none => exact WF_setCol out p _ hdf (List.length_replicate _ _)
    | some vs => exact WF_setCol out p _ hdf (WF_getCol_length out cu vs hdf hg)
  · simp only [Bool.not_true, Bool.false_eq_true, if_false]
    cases hg : out.getCol p with
    | none => exact hdf
    | some vs =>
        cases hall : vs.all Value.isna
        · simpa [hall] using hdf
        · simp only [hall, if_true]
          cases hg2 : out.getCol cu with
          | none => exact WF_setCol out p _ hdf (List.length_replicate _ _)
          | some cs => exact WF_setCol out p _ hdf (WF_getCol_length out cu cs hdf hg2)

/-! Delta/percent-change stage lemmas. -/

theorem nrows_fzd (out : DFrame) (dc cc pc : String) :
    (fillZeroDeltaStage out dc cc pc).nrows = out.nrows := by
  unfold fillZeroDeltaStage
  cases h : out.hasCol dc
  · simp only [Bool.false_eq_true, if_false]
    split_ifs <;> rfl
  · simp

theorem getCol_fzd_ne (out : DFrame) (dc cc pc c : String) (h : c ≠ dc) :
    (fillZeroDeltaStage out dc cc pc).getCol c = out.getCol c := by
  unfold fillZeroDeltaStage
  cases h1 : out.hasCol dc
  · simp only [Bool.false_eq_true, if_false]
    split_ifs <;> exact getCol_setCol_ne out dc c _ h
  · simp

theorem hasCol_fzd_ne (out : DFrame) (dc cc pc c : String) (h : c ≠ dc) :
    (fillZeroDeltaStage out dc cc pc).hasCol c = out.hasCol c := by
  unfold fillZeroDeltaStage
  have hb : (dc == c) = false := beq_eq_false_iff_ne.mpr (Ne.symm h)
  cases h1 : out.hasCol dc
  · simp only [Bool.false_eq_true, if_false]
    split_ifs <;> (rw [hasCol_setCol, hb]; simp)
  · simp

theorem hasCol_fzd_self (out : DFrame) (dc cc pc : String) :
    (fillZeroDeltaStage out dc cc pc).hasCol dc = true := by
  unfold fillZeroDeltaStage
  cases h1 : out.hasCol dc
  · simp only [Bool.false_eq_true, if_false]
    split_ifs <;> (rw [hasCol_setCol]; simp)
  · simpa using h1

theorem nrows_pct (out : DFrame) (pcCol dc pv : String) :
    (pctChangeStage out pcCol dc pv).nrows = out.nrows := by
  unfold pctChangeStage
  cases h : out.hasCol pcCol <;> simp [h]

theorem getCol_pct_ne (out : DFrame) (pcCol dc pv c : String) (h : c ≠ pcCol) :
    (pctChangeStage out pcCol dc pv).getCol c = out.getCol c := by
  unfold pctChangeStage
  cases h1 : out.hasCol pcCol
  · simp only [Bool.false_eq_true, if_false]
    exact getCol_setCol_ne out pcCol c _ h
  · simp

theorem hasCol_pct_ne (out : DFrame) (pcCol dc pv c : String) (h : c ≠ pcCol) :
    (pctChangeStage out pcCol dc pv).hasCol c = out.hasCol c := by
  unfold pctChangeStage
  have hb : (pcCol == c) = false := beq_eq_false_iff_ne.mpr (Ne.symm h)
  cases h1 : out.hasCol pcCol
  · simp only [Bool.false_eq_true, if_false]
    rw [hasCol_setCol, hb]
    simp
  · simp

/-! Composite shape lemmas for the build_features stages. -/

theorem nrows_bfStage1 (df : DFrame) : (bfStage1 df).nrows = df.nrows := by
  unfold bfStage1
  rw [nrows_dptc, nrows_dptc, nrows_dptc]

theorem nrows_bfStage2 (df : DFrame) : (bfStage2 df).nrows = df.nrows := by
  unfold bfStage2
  rw [nrows_ensureFold, nrows_bfStage1]

theorem nrows_bfStage3 (df : DFrame) : (bfStage3 df).nrows = df.nrows := by
  unfold bfStage3
  rw [nrows_mapFold, nrows_bfStage2]

theorem nrows_bfStage4 (df : DFrame) : (bfStage4 df).nrows = df.nrows := by
  unfold bfStage4
  rw [nrows_mapCol, nrows_bfStage3]

theorem nrows_bfStage5 (df : DFrame) : (bfStage5 df).nrows = df.nrows := by
  unfold bfStage5
  cases h : (bfStage4 df).hasCol "seats_delta" <;>
    simp [h, nrows_bfStage4]

theorem nrows_bfStage6 (df : DFrame) : (bfStage6 df).nrows = df.nrows := by
  unfold bfStage6
  rw [nrows_fzd, nrows_fzd, nrows_bfStage5]

theorem nrows_bfStage7 (df : DFrame) : (bfStage7 df).nrows = df.nrows := by
  unfold bfStage7
  rw [nrows_pct, nrows_pct, nrows_pct, nrows_bfStage6]

theorem nrows_bfStage8 (df : DFrame) : (bfStage8 df).nrows = df.nrows := by
  unfold bfStage8
  rw [nrows_compFold, nrows_bfStage7]

theorem nrows_build_features (df : DFrame) :
    (build_features df).nrows = df.nrows := by
  unfold build_features
  rw [nrows_mapFold, nrows_bfStage8]

/-! Untouched-column and monotonicity composites. -/

theorem getCol_bfStage1_ne (df : DFrame) (c : String)
    (h1 : c ≠ "seats_prev") (h2 : c ≠ "arr_prev") (h3 : c ≠ "mrr_prev") :
    (bfStage1 df).getCol c = df.getCol c := by
  unfold bfStage1
  rw [getCol_dptc_ne _ _ _ _ _ h3, getCol_dptc_ne _ _ _ _ _ h2,
    getCol_dptc_ne _ _ _ _ _ h1]

theorem hasCol_bfStage1_ne (df : DFrame) (c : String)
    (h1 : c ≠ "seats_prev") (h2 : c ≠ "arr_prev") (h3 : c ≠ "mrr_prev") :
    (bfStage1 df).hasCol c = df.hasCol c := by
  unfold bfStage1
  rw [hasCol_dptc_ne _ _ _ _ _ h3, hasCol_dptc_ne _ _ _ _ _ h2,
    hasCol_dptc_ne _ _ _ _ _ h1]

theorem getCol_bfStage5_ne (df : DFrame) (c : String) (h : c ≠ "seats_delta") :
    (bfStage5 df).getCol c = (bfStage4 df).getCol c := by
  unfold bfStage5
  cases hsd : (bfStage4 df).hasCol "seats_delta"
  · simp only [hsd, Bool.false_eq_true, if_false]
    exact getCol_setCol_ne _ _ _ _ h
  · simp [hsd]

theorem hasCol_bfStage5_ne (df : DFrame) (c : String) (h : c ≠ "seats_delta") :
    (bfStage5 df).hasCol c = (bfStage4 df).hasCol c := by
  unfold bfStage5
  cases hsd : (bfStage4 df).hasCol "seats_delta"
  · simp only [hsd, Bool.false_eq_true, if_false]
    rw [hasCol_setCol, beq_eq_false_iff_ne.mpr (Ne.symm h)]
    simp
  · simp [hsd]

theorem getCol_bfStage7_untouched (df : DFrame) (c : String)
    (h1 : c ≠ "seats_prev") (h2 : c ≠ "arr_prev") (h3 : c ≠ "mrr_prev")
    (h4 : c ∉ BASE_COLS) (h5 : c ∉ FLAG_COLS) (h6 : c ≠ "avg_satisfaction")
    (h7 : c ≠ "seats_delta") (h8 : c ≠ "arr_delta") (h9 : c ≠ "mrr_delta")
    (h10 : c ≠ "seats_pct_change") (h11 : c ≠ "arr_pct_change")
    (h12 : c ≠ "mrr_pct_change") :
    (bfStage7 df).getCol c = df.getCol c := by
  unfold bfStage7
  rw [getCol_pct_ne _ _ _ _ _ h12, getCol_pct_ne _ _ _ _ _ h11,
    getCol_pct_ne _ _ _ _ _ h10]
  unfold bfStage6
  rw [getCol_fzd_ne _ _ _ _ _ h9, getCol_fzd_ne _ _ _ _ _ h8]
  rw [getCol_bfStage5_ne _ _ h7]
  unfold bfStage4
  rw [getCol_mapCol_ne _ _ _ _ h6]
  unfold bfStage3
  rw [getCol_mapFold_not_mem _ _ _ _ h5]
  unfold bfStage2
  rw [getCol_ensureFold_not_mem _ _ _ h4]
  exact getCol_bfStage1_ne df c h1 h2 h3

theorem hasCol_bfStage7_untouched (df : DFrame) (c : String)
    (h1 : c ≠ "seats_prev") (h2 : c ≠ "arr_prev") (h3 : c ≠ "mrr_prev")
    (h4 : c ∉ BASE_COLS)
    (h7 : c ≠ "seats_delta") (h8 : c ≠ "arr_delta") (h9 : c ≠ "mrr_delta")
    (h10 : c ≠ "seats_pct_change") (h11 : c ≠ "arr_pct_change")
    (h12 : c ≠ "mrr_pct_change") :
    (bfStage7 df).hasCol c = df.hasCol c := by
  unfold bfStage7
  rw [hasCol_pct_ne _ _ _ _ _ h12, hasCol_pct_ne _ _ _ _ _ h11,
    hasCol_pct_ne _ _ _ _ _ h10]
  unfold bfStage6
  rw [hasCol_fzd_ne _ _ _ _ _ h9, hasCol_fzd_ne _ _ _ _ _ h8]
  rw [hasCol_bfStage5_ne _ _ h7]
  unfold bfStage4
  rw [hasCol_mapCol]
  unfold bfStage3
  rw [hasCol_mapFold]
  unfold bfStage2
  rw [hasCol_ensureFold]
  rw [hasCol_bfStage1_ne df c h1 h2 h3]
  rw [show BASE_COLS.contains c = false from by
    cases hbc : BASE_COLS.contains c
    · rfl
    · exact absurd (by simpa using hbc : c ∈ BASE_COLS) h4]
  simp

/-- build_features leaves a column untouched when it is none of the stage
targets: in particular account_id passes through unchanged. -/
theorem getCol_build_features_untouched (df : DFrame) (c : String)
    (h1 : c ≠ "seats_prev") (h2 : c ≠ "arr_prev") (h3 : c ≠ "mrr_prev")
    (h4 : c ∉ BASE_COLS) (h5 : c ∉ FLAG_COLS) (h6 : c ≠ "avg_satisfaction")
    (h7 : c ≠ "seats_delta") (h8 : c ≠ "arr_delta") (h9 : c ≠ "mrr_delta")
    (h10 : c ≠ "seats_pct_change") (h11 : c ≠ "arr_pct_change")
    (h12 : c ≠ "mrr_pct_change") (h13 : c ∉ model_feature_columns)
    (h14 : c ∉ NUM_LIKE_FINAL) :
    (build_features df).getCol c = df.getCol c := by
  unfold build_features
  rw [getCol_mapFold_not_mem _ _ _ _ h14]
  unfold bfStage8
  rw [getCol_compFold_not_mem _ _ _ h13]
  exact getCol_bfStage7_untouched df c h1 h2 h3 h4 h5 h6 h7 h8 h9 h10 h11 h12

theorem getCol_build_features_account (df : DFrame) :
    (build_features df).getCol "account_id" = df.getCol "account_id" :=
  getCol_build_features_untouched df "account_id" (by decide) (by decide)
    (by decide) (by decide) (by decide) (by decide) (by decide) (by decide)
    (by decide) (by decide) (by decide) (by decide) (by decide) (by decide)

theorem contains_eq_true_of_mem (l : List String) (c : String) (h : c ∈ l) :
    l.contains c = true := by
  cases hbc : l.contains c
  · exact absurd h (by simpa using hbc)
  · rfl

theorem contains_eq_false_of_not_mem (l : List String) (c : String) (h : c ∉ l) :
    l.contains c = false := by
  cases hbc : l.contains c
  · rfl
  · exact absurd (by simpa using hbc : c ∈ l) h

/-- Every canonical feature column exists after build_features. -/
theorem hasCol_build_features_canonical (df : DFrame) (c : String)
    (hm : c ∈ model_feature_columns) :
    (build_features df).hasCol c = true := by
  unfold build_features
  rw [hasCol_mapFold]
  unfold bfStage8
  rw [hasCol_compFold, contains_eq_true_of_mem _ _ hm]
  simp

/-- A base column is present from stage 2 on (stated at stage 7 for the
columns that are not delta/pct targets). -/
theorem hasCol_bfStage7_base (df : DFrame) (c : String) (hmem : c ∈ BASE_COLS)
    (h7 : c ≠ "seats_delta") (h8 : c ≠ "arr_delta") (h9 : c ≠ "mrr_delta")
    (h10 : c ≠ "seats_pct_change") (h11 : c ≠ "arr_pct_change")
    (h12 : c ≠ "mrr_pct_change") :
    (bfStage7 df).hasCol c = true := by
  unfold bfStage7
  rw [hasCol_pct_ne _ _ _ _ _ h12, hasCol_pct_ne _ _ _ _ _ h11,
    hasCol_pct_ne _ _ _ _ _ h10]
  unfold bfStage6
  rw [hasCol_fzd_ne _ _ _ _ _ h9, hasCol_fzd_ne _ _ _ _ _ h8]
  rw [hasCol_bfStage5_ne _ _ h7]
  unfold bfStage4
  rw [hasCol_mapCol]
  unfold bfStage3
  rw [hasCol_mapFold]
  unfold bfStage2
  rw [hasCol_ensureFold, contains_eq_true_of_mem _ _ hmem]
  simp

/-- Absent usage_delta is completed with NaN (not 0). -/
theorem getCol_build_features_usage_delta (df : DFrame)
    (h : df.hasCol "usage_delta" = false) :
    (build_features df).getCol "usage_delta" =
      some (List.replicate df.nrows .nan) := by
  unfold build_features
  rw [getCol_mapFold_not_mem _ _ _ _ (by decide)]
  unfold bfStage8
  rw [getCol_compFold_absent_mem _ _ _ (by decide)
    (by rw [hasCol_bfStage7_untouched df _ (by decide) (by decide) (by decide)
      (by decide) (by decide) (by decide) (by decide) (by decide) (by decide)
      (by decide)]; exact h)]
  rw [nrows_bfStage7]
  rw [show completeDefault "usage_delta" = Value.nan from by decide]

/-- Absent tickets_delta is completed with NaN (not 0). -/
theorem getCol_build_features_tickets_delta (df : DFrame)
    (h : df.hasCol "tickets_delta" = false) :
    (build_features df).getCol "tickets_delta" =
      some (List.replicate df.nrows .nan) := by
  unfold build_features
  rw [getCol_mapFold_not_mem _ _ _ _ (by decide)]
  unfold bfStage8
  rw [getCol_compFold_absent_mem _ _ _ (by decide)
    (by rw [hasCol_bfStage7_untouched df _ (by decide) (by decide) (by decide)
      (by decide) (by decide) (by decide) (by decide) (by decide) (by decide)
      (by decide)]; exact h)]
  rw [nrows_bfStage7]
  rw [show completeDefault "tickets_delta" = Value.nan from by decide]

/-- Absent plan_tier is materialized as NaN in stage 2 and therefore never
reaches the "Unknown" completion branch. -/
theorem getCol_build_features_plan_tier_absent (df : DFrame)
    (h : df.hasCol "plan_tier" = false) :
    (build_features df).getCol "plan_tier" =
      some (List.replicate df.nrows .nan) := by
  unfold build_features
  rw [getCol_mapFold_not_mem _ _ _ _ (by decide)]
  unfold bfStage8
  rw [getCol_compFold_of_hasCol _ _ _ (hasCol_bfStage7_base df _ (by decide)
    (by decide) (by decide) (by decide) (by decide) (by decide) (by decide))]
  unfold bfStage7
  rw [getCol_pct_ne _ _ _ _ _ (by decide), getCol_pct_ne _ _ _ _ _ (by decide),
    getCol_pct_ne _ _ _ _ _ (by decide)]
  unfold bfStage6
  rw [getCol_fzd_ne _ _ _ _ _ (by decide), getCol_fzd_ne _ _ _ _ _ (by decide)]
  rw [getCol_bfStage5_ne _ _ (by decide)]
  unfold bfStage4
  rw [getCol_mapCol_ne _ _ _ _ (by decide)]
  unfold bfStage3
  rw [getCol_mapFold_not_mem _ _ _ _ (by decide)]
  unfold bfStage2
  rw [getCol_ensureFold_absent_mem _ _ _ (by decide)
    (by rw [hasCol_bfStage1_ne df _ (by decide) (by decide) (by decide)]; exact h)]
  rw [nrows_bfStage1]

/-- Absent flag columns are materialized as NaN and then normalized to the
exact integer 0. -/
theorem getCol_build_features_flag_absent (df : DFrame) (c : String)
    (hc : c ∈ FLAG_COLS) (h : df.hasCol c = false) :
    (build_features df).getCol c =
      some (List.replicate df.nrows (.num 0)) := by
  have hscript : ∀ c', c' ∈ FLAG_COLS → df.hasCol c' = false →
      c' = "usage_drop_flag" ∨ c' = "subscription_end_in_quarter" ∨
      c' = "satisfaction_missing_flag" ∨ c' = "contract_missing_flag" := by
    intro c' hc' _
    simpa [FLAG_COLS] using hc'
  rcases hscript c hc h with rfl | rfl | rfl | rfl <;>
  · unfold build_features
    rw [getCol_mapFold_not_mem _ _ _ _ (by decide)]
    unfold bfStage8
    rw [getCol_compFold_of_hasCol _ _ _ (hasCol_bfStage7_base df _ (by decide)
      (by decide) (by decide) (by decide) (by decide) (by decide) (by decide))]
    unfold bfStage7
    rw [getCol_pct_ne _ _ _ _ _ (by decide), getCol_pct_ne _ _ _ _ _ (by decide),
      getCol_pct_ne _ _ _ _ _ (by decide)]
    unfold bfStage6
    rw [getCol_fzd_ne _ _ _ _ _ (by decide), getCol_fzd_ne _ _ _ _ _ (by decide)]
    rw [getCol_bfStage5_ne _ _ (by decide)]
    unfold bfStage4
    rw [getCol_mapCol_ne _ _ _ _ (by decide)]
    unfold bfStage3
    rw [getCol_mapFold_mem _ _ _ _ (by decide) (by decide)]
    unfold bfStage2
    rw [getCol_ensureFold_absent_mem _ _ _ (by decide)
      (by rw [hasCol_bfStage1_ne df _ (by decide) (by decide) (by decide)]; exact h)]
    rw [nrows_bfStage1]
    simp [List.map_replicate, show flagCell Value.nan = Value.num 0 from by decide]

/-- Absent avg_satisfaction is materialized as NaN and stays NaN through
the numeric coercions. -/
theorem getCol_build_features_avg_satisfaction_absent (df : DFrame)
    (h : df.hasCol "avg_satisfaction" = false) :
    (build_features df).getCol "avg_satisfaction" =
      some (List.replicate df.nrows .nan) := by
  unfold build_features
  rw [getCol_mapFold_mem _ _ _ _ (by decide) (by decide)]
  unfold bfStage8
  rw [getCol_compFold_of_hasCol _ _ _ (hasCol_bfStage7_base df _ (by decide)
    (by decide) (by decide) (by decide) (by decide) (by decide) (by decide))]
  unfold bfStage7
  rw [getCol_pct_ne _ _ _ _ _ (by decide), getCol_pct_ne _ _ _ _ _ (by decide),
    getCol_pct_ne _ _ _ _ _ (by decide)]
  unfold bfStage6
  rw [getCol_fzd_ne _ _ _ _ _ (by decide), getCol_fzd_ne _ _ _ _ _ (by decide)]
  rw [getCol_bfStage5_ne _ _ (by decide)]
  unfold bfStage4
  rw [getCol_mapCol_self]
  unfold bfStage3
  rw [getCol_mapFold_not_mem _ _ _ _ (by decide)]
  unfold bfStage2
  rw [getCol_ensureFold_absent_mem _ _ _ (by decide)
    (by rw [hasCol_bfStage1_ne df _ (by decide) (by decide) (by decide)]; exact h)]
  rw [nrows_bfStage1]
  simp [List.map_replicate]
  exact Or.inr rfl

/-- The final numeric re-assertion leaves no string cells in the derived
numeric columns. -/
theorem build_features_numeric_no_str (df : DFrame) (c : String)
    (hm : c ∈ NUM_LIKE_FINAL) (vs : List Value)
    (hv : (build_features df).getCol c = some vs) :
    ∀ v ∈ vs, v.isStr = false := by
  unfold build_features at hv
  rw [getCol_mapFold_mem _ _ _ _ (by decide) hm] at hv
  cases hg : (bfStage8 df).getCol c with
  | none => rw [hg] at hv; cases hv
  | some old =>
      rw [hg] at hv
      simp only [Option.map] at hv
      rw [Option.some.injEq] at hv
      intro v hvv
      rw [← hv] at hvv
      obtain ⟨w, _, hw⟩ := List.mem_map.mp hvv
      rw [← hw]
      exact toNumericCell_not_str w

/-- C4 as stated, instantiated at the canonical features it constrains:
every canonical feature present; an absent numeric feature (usage_delta)
filled with 0; the absent categorical plan_tier filled with the literal
"Unknown"; numeric feature columns (tickets_delta) never strings. -/
def ClaimC4 : Prop :=
  ∀ df : DFrame,
    (∀ c ∈ model_feature_columns, (build_features df).hasCol c = true) ∧
    (df.hasCol "usage_delta" = false →
      (build_features df).getCol "usage_delta" =
        some (List.replicate df.nrows (.num 0))) ∧
    (df.hasCol "plan_tier" = false →
      (build_features df).getCol "plan_tier" =
        some (List.replicate df.nrows (.str "Unknown"))) ∧
    (∀ vs, (build_features df).getCol "tickets_delta" = some vs →
      ∀ v ∈ vs, v.isStr = false)

/-- One-row frame with a string tickets_delta and nothing else mapped. -/
def c4Frame : DFrame :=
  { nrows := 1,
    cols := [("account_id", [.str "A"]), ("tickets_delta", [.str "abc"])] }

set_option maxRecDepth 10000 in
set_option maxHeartbeats 1000000 in
/-- Counterexample to C4: on c4Frame the absent numeric usage_delta is
filled with NaN rather than 0 (the absent plan_tier likewise becomes NaN,
and the string tickets_delta column survives untouched). -/
theorem C4_counterexample : ¬ ClaimC4 := by
  intro h
  have h2 := (h c4Frame).2.1 (by decide)
  exact absurd h2 (by decide)

/-- C4 amended.  Every canonical feature name is present in the output;
canonical features absent from the input are filled with the exact integer
0 for the four flags and with NaN for everything else — including the
numeric usage_delta/tickets_delta and the categorical plan_tier, whose
"Unknown" branch is unreachable because plan_tier is materialized as NaN
before the completion loop; the delta/pct-change/satisfaction columns
re-asserted numeric never contain strings (usage_delta and tickets_delta
are outside that list and pass through as supplied). -/
theorem C4_amended (df : DFrame) :
    (∀ c ∈ model_feature_columns, (build_features df).hasCol c = true) ∧
    (df.hasCol "usage_delta" = false →
      (build_features df).getCol "usage_delta" =
        some (List.replicate df.nrows .nan)) ∧
    (df.hasCol "tickets_delta" = false →
      (build_features df).getCol "tickets_delta" =
        some (List.replicate df.nrows .nan)) ∧
    (df.hasCol "plan_tier" = false →
      (build_features df).getCol "plan_tier" =
        some (List.replicate df.nrows .nan)) ∧
    (∀ c ∈ FLAG_COLS, df.hasCol c = false →
      (build_features df).getCol c =
        some (List.replicate df.nrows (.num 0))) ∧
    (df.hasCol "avg_satisfaction" = false →
      (build_features df).getCol "avg_satisfaction" =
        some (List.replicate df.nrows .nan)) ∧
    (∀ c ∈ NUM_LIKE_FINAL, ∀ vs, (build_features df).getCol c = some vs →
      ∀ v ∈ vs, v.isStr = false) :=
  ⟨hasCol_build_features_canonical df,
   getCol_build_features_usage_delta df,
   getCol_build_features_tickets_delta df,
   getCol_build_features_plan_tier_absent df,
   fun c hc h => getCol_build_features_flag_absent df c hc h,
   getCol_build_features_avg_satisfaction_absent df,
   fun c hm vs hv => build_features_numeric_no_str df c hm vs hv⟩

set_option maxRecDepth 10000 in
set_option maxHeartbeats 1000000 in
/-- Witness for C4 amended on the concrete one-row frame. -/
theorem C4_amended_witness :
    c4Frame.hasCol "usage_delta" = false ∧
    c4Frame.hasCol "plan_tier" = false ∧
    c4Frame.hasCol "usage_drop_flag" = false ∧
    (build_features c4Frame).getCol "usage_delta" =
      some (List.replicate c4Frame.nrows .nan) ∧
    (build_features c4Frame).getCol "plan_tier" =
      some (List.replicate c4Frame.nrows .nan) ∧
    (build_features c4Frame).getCol "usage_drop_flag" =
      some (List.replicate c4Frame.nrows (.num 0)) :=
  ⟨by decide, by decide, by decide,
   (C4_amended c4Frame).2.1 (by decide),
   (C4_amended c4Frame).2.2.2.1 (by decide),
   (C4_amended c4Frame).2.2.2.2.1 "usage_drop_flag" (by decide) (by decide)⟩

theorem getCol_none_of_hasCol_false (df : DFrame) (c : String)
    (h : df.hasCol c = false) : df.getCol c = none := by
  cases hg : df.getCol c with
  | none => rfl
  | some vs =>
      have hiff := getCol_isSome_iff_hasCol df c
      rw [hg, h] at hiff
      cases hiff

theorem hasCol_of_getCol_some (df : DFrame) (c : String) (vs : List Value)
    (h : df.getCol c = some vs) : df.hasCol c = true := by
  rw [← getCol_isSome_iff_hasCol, h]
  rfl

theorem zipWith_replicate_same (f : Value → Value → Value) (n : ℕ) (a b : Value) :
    List.zipWith f (List.replicate n a) (List.replicate n b) =
      List.replicate n (f a b) := by
  induction n with
  | zero => rfl
  | succ k ih => simp [List.replicate_succ, ih]

/-- defaultPrevToCurrent result on the prev column, absent prev with an
absent current: a column of missing values. -/
theorem getCol_dptc_self_absent_both (dfI out : DFrame) (p cu : String)
    (hp : dfI.hasCol p = false) (hcu : out.getCol cu = none) :
    (defaultPrevToCurrent dfI out p cu).getCol p =
      some (List.replicate out.nrows .nan) := by
  unfold defaultPrevToCurrent
  simp only [hp, Bool.not_false, if_true, hcu]
  exact getCol_setCol_self out p _

/-- defaultPrevToCurrent result on the prev column, absent prev with a
present current: a copy of the current column. -/
theorem getCol_dptc_self_absent_cur (dfI out : DFrame) (p cu : String)
    (cs : List Value) (hp : dfI.hasCol p = false) (hcu : out.getCol cu = some cs) :
    (defaultPrevToCurrent dfI out p cu).getCol p = some cs := by
  unfold defaultPrevToCurrent
  simp only [hp, Bool.not_false, if_true, hcu]
  exact getCol_setCol_self out p _

/-- defaultPrevToCurrent leaves a partially populated prev column alone. -/
theorem getCol_dptc_self_mixed (dfI out : DFrame) (p cu : String)
    (vs : List Value) (hp : dfI.hasCol p = true) (hv : out.getCol p = some vs)
    (hnall : vs.all Value.isna = false) :
    (defaultPrevToCurrent dfI out p cu).getCol p = some vs := by
  unfold defaultPrevToCurrent
  simp only [hp, Bool.not_true, Bool.false_eq_true, if_false, hv, hnall]

/-- A column untouched by the first five stages. -/
theorem hasCol_bfStage5_untouched (df : DFrame) (c : String)
    (h1 : c ≠ "seats_prev") (h2 : c ≠ "arr_prev") (h3 : c ≠ "mrr_prev")
    (h4 : c ∉ BASE_COLS) (h7 : c ≠ "seats_delta") :
    (bfStage5 df).hasCol c = df.hasCol c := by
  rw [hasCol_bfStage5_ne _ _ h7]
  unfold bfStage4
  rw [hasCol_mapCol]
  unfold bfStage3
  rw [hasCol_mapFold]
  unfold bfStage2
  rw [hasCol_ensureFold, hasCol_bfStage1_ne df c h1 h2 h3,
    contains_eq_false_of_not_mem _ _ h4]
  simp

/-- The fill-with-zero delta stage evaluated on its target column. -/
theorem getCol_fzd_self_eval (out : DFrame) (dc cc pc : String)
    (cs ps : List Value) (hd : out.hasCol dc = false)
    (hc : out.getCol cc = some cs) (hp : out.getCol pc = some ps) :
    (fillZeroDeltaStage out dc cc pc).getCol dc =
      some (if cs.map toNumericCell = [] ∧ ps.map toNumericCell = [] then
          List.replicate out.nrows .nan
        else
          List.zipWith (fun x y => vsub (fillna0 x) (fillna0 y))
            (cs.map toNumericCell) (ps.map toNumericCell)) := by
  unfold fillZeroDeltaStage
  simp only [hd, Bool.false_eq_true, if_false, hc, hp, toNumericOpt]
  split_ifs with hcond
  · exact getCol_setCol_self out dc _
  · exact getCol_setCol_self out dc _

theorem hasCol_bfStage4_untouched (df : DFrame) (c : String)
    (h1 : c ≠ "seats_prev") (h2 : c ≠ "arr_prev") (h3 : c ≠ "mrr_prev")
    (h4 : c ∉ BASE_COLS) :
    (bfStage4 df).hasCol c = df.hasCol c := by
  unfold bfStage4
  rw [hasCol_mapCol]
  unfold bfStage3
  rw [hasCol_mapFold]
  unfold bfStage2
  rw [hasCol_ensureFold, hasCol_bfStage1_ne df c h1 h2 h3,
    contains_eq_false_of_not_mem _ _ h4]
  simp

/-- A column present at stage 1 passes unchanged to stage 4 when it is not
a flag and not avg_satisfaction. -/
theorem getCol_bfStage4_carry (df : DFrame) (c : String) (vs : List Value)
    (h1 : (bfStage1 df).getCol c = some vs)
    (h5 : c ∉ FLAG_COLS) (h6 : c ≠ "avg_satisfaction") :
    (bfStage4 df).getCol c = some vs := by
  unfold bfStage4
  rw [getCol_mapCol_ne _ _ _ _ h6]
  unfold bfStage3
  rw [getCol_mapFold_not_mem _ _ _ _ h5]
  unfold bfStage2
  rw [getCol_ensureFold_of_hasCol _ _ _ (hasCol_of_getCol_some _ _ _ h1)]
  exact h1

theorem getCol_bfStage5_carry (df : DFrame) (c : String) (vs : List Value)
    (h1 : (bfStage1 df).getCol c = some vs)
    (h5 : c ∉ FLAG_COLS) (h6 : c ≠ "avg_satisfaction") (h7 : c ≠ "seats_delta") :
    (bfStage5 df).getCol c = some vs := by
  rw [getCol_bfStage5_ne _ _ h7]
  exact getCol_bfStage4_carry df c vs h1 h5 h6

/-- A base column entirely absent from the input holds NaN at stage 5. -/
theorem getCol_bfStage5_base_absent (df : DFrame) (c : String)
    (hmem : c ∈ BASE_COLS) (habs : df.hasCol c = false)
    (h1 : c ≠ "seats_prev") (h2 : c ≠ "arr_prev") (h3 : c ≠ "mrr_prev")
    (h5 : c ∉ FLAG_COLS) (h6 : c ≠ "avg_satisfaction") (h7 : c ≠ "seats_delta") :
    (bfStage5 df).getCol c = some (List.replicate df.nrows .nan) := by
  rw [getCol_bfStage5_ne _ _ h7]
  unfold bfStage4
  rw [getCol_mapCol_ne _ _ _ _ h6]
  unfold bfStage3
  rw [getCol_mapFold_not_mem _ _ _ _ h5]
  unfold bfStage2
  rw [getCol_ensureFold_absent_mem _ _ _ hmem
    (by rw [hasCol_bfStage1_ne df c h1 h2 h3]; exact habs)]
  rw [nrows_bfStage1]

/-- A column present at stage 5 and untouched afterwards reaches the
output unchanged. -/
theorem getCol_build_features_carry (df : DFrame) (c : String) (vs : List Value)
    (h : (bfStage5 df).getCol c = some vs)
    (h8 : c ≠ "arr_delta") (h9 : c ≠ "mrr_delta")
    (h10 : c ≠ "seats_pct_change") (h11 : c ≠ "arr_pct_change")
    (h12 : c ≠ "mrr_pct_change") (h14 : c ∉ NUM_LIKE_FINAL) :
    (build_features df).getCol c = some vs := by
  have h7 : (bfStage7 df).getCol c = some vs := by
    unfold bfStage7
    rw [getCol_pct_ne _ _ _ _ _ h12, getCol_pct_ne _ _ _ _ _ h11,
      getCol_pct_ne _ _ _ _ _ h10]
    unfold bfStage6
    rw [getCol_fzd_ne _ _ _ _ _ h9, getCol_fzd_ne _ _ _ _ _ h8]
    exact h
  unfold build_features
  rw [getCol_mapFold_not_mem _ _ _ _ h14]
  unfold bfStage8
  rw [getCol_compFold_of_hasCol _ _ _ (hasCol_of_getCol_some _ _ _ h7)]
  exact h7

/-- A delta column present at stage 6 reaches the output through the final
numeric re-assertion. -/
theorem getCol_build_features_from_bf6_delta (df : DFrame) (c : String)
    (vs : List Value) (h : (bfStage6 df).getCol c = some vs)
    (h10 : c ≠ "seats_pct_change") (h11 : c ≠ "arr_pct_change")
    (h12 : c ≠ "mrr_pct_change") (hmem : c ∈ NUM_LIKE_FINAL) :
    (build_features df).getCol c = some (vs.map toNumericCell) := by
  have h7 : (bfStage7 df).getCol c = some vs := by
    unfold bfStage7
    rw [getCol_pct_ne _ _ _ _ _ h12, getCol_pct_ne _ _ _ _ _ h11,
      getCol_pct_ne _ _ _ _ _ h10]
    exact h
  unfold build_features
  rw [getCol_mapFold_mem _ _ _ _ (by decide) hmem]
  unfold bfStage8
  rw [getCol_compFold_of_hasCol _ _ _ (hasCol_of_getCol_some _ _ _ h7), h7]
  rfl

/-! Stage-1 values for the three prev columns. -/

theorem getCol_bfStage1_seats_prev_absent_cur (df : DFrame) (cs : List Value)
    (hp : df.hasCol "seats_prev" = false)
    (hc : df.getCol "seats_current" = some cs) :
    (bfStage1 df).getCol "seats_prev" = some cs := by
  unfold bfStage1
  rw [getCol_dptc_ne _ _ _ _ _ (by decide), getCol_dptc_ne _ _ _ _ _ (by decide)]
  exact getCol_dptc_self_absent_cur df df _ _ cs hp hc

theorem getCol_bfStage1_seats_prev_mixed (df : DFrame) (vs : List Value)
    (hp : df.hasCol "seats_prev" = true)
    (hv : df.getCol "seats_prev" = some vs)
    (hnall : vs.all Value.isna = false) :
    (bfStage1 df).getCol "seats_prev" = some vs := by
  unfold bfStage1
  rw [getCol_dptc_ne _ _ _ _ _ (by decide), getCol_dptc_ne _ _ _ _ _ (by decide)]
  exact getCol_dptc_self_mixed df df _ _ vs hp hv hnall

theorem getCol_bfStage1_arr_prev_absent_cur (df : DFrame) (cs : List Value)
    (hp : df.hasCol "arr_prev" = false)
    (hc : df.getCol "arr_current" = some cs) :
    (bfStage1 df).getCol "arr_prev" = some cs := by
  unfold bfStage1
  rw [getCol_dptc_ne _ _ _ _ _ (by decide)]
  apply getCol_dptc_self_absent_cur df _ _ _ cs hp
  rw [getCol_dptc_ne _ _ _ _ _ (by decide)]
  exact hc

theorem getCol_bfStage1_arr_prev_both_absent (df : DFrame)
    (hp : df.hasCol "arr_prev" = false)
    (hc : df.hasCol "arr_current" = false) :
    (bfStage1 df).getCol "arr_prev" = some (List.replicate df.nrows .nan) := by
  unfold bfStage1
  rw [getCol_dptc_ne _ _ _ _ _ (by decide)]
  rw [getCol_dptc_self_absent_both df _ _ _ hp
    (by rw [getCol_dptc_ne _ _ _ _ _ (by decide)]
        exact getCol_none_of_hasCol_false df _ hc)]
  rw [nrows_dptc]

theorem getCol_bfStage1_mrr_prev_both_absent (df : DFrame)
    (hp : df.hasCol "mrr_prev" = false)
    (hc : df.hasCol "mrr_current" = false) :
    (bfStage1 df).getCol "mrr_prev" = some (List.replicate df.nrows .nan) := by
  unfold bfStage1
  rw [getCol_dptc_self_absent_both df _ _ _ hp
    (by rw [getCol_dptc_ne _ _ _ _ _ (by decide), getCol_dptc_ne _ _ _ _ _ (by decide)]
        exact getCol_none_of_hasCol_false df _ hc)]
  rw [nrows_dptc, nrows_dptc]

theorem getCol_bfStage1_mrr_prev_absent_cur (df : DFrame) (cs : List Value)
    (hp : df.hasCol "mrr_prev" = false)
    (hc : df.getCol "mrr_current" = some cs) :
    (bfStage1 df).getCol "mrr_prev" = some cs := by
  unfold bfStage1
  apply getCol_dptc_self_absent_cur df _ _ _ cs hp
  rw [getCol_dptc_ne _ _ _ _ _ (by decide), getCol_dptc_ne _ _ _ _ _ (by decide)]
  exact hc

/-- With both arr columns entirely absent the derived arr_delta is 0 in
every row, not NaN: the materialized all-NaN sides are filled with 0
before subtracting, and the all-NaN early-out branch of the source only
triggers on an empty frame. -/
theorem build_features_arr_delta_both_absent (df : DFrame)
    (hd : df.hasCol "arr_delta" = false)
    (hc : df.hasCol "arr_current" = false)
    (hp : df.hasCol "arr_prev" = false) :
    (build_features df).getCol "arr_delta" =
      some (List.replicate df.nrows (.num 0)) := by
  have hc5 : (bfStage5 df).getCol "arr_current" =
      some (List.replicate df.nrows .nan) :=
    getCol_bfStage5_base_absent df _ (by decide) hc (by decide) (by decide)
      (by decide) (by decide) (by decide) (by decide)
  have hp5 : (bfStage5 df).getCol "arr_prev" =
      some (List.replicate df.nrows .nan) :=
    getCol_bfStage5_carry df _ _ (getCol_bfStage1_arr_prev_both_absent df hp hc)
      (by decide) (by decide) (by decide)
  have hd5 : (bfStage5 df).hasCol "arr_delta" = false := by
    rw [hasCol_bfStage5_untouched df _ (by decide) (by decide) (by decide)
      (by decide) (by decide)]
    exact hd
  have hfz := getCol_fzd_self_eval (bfStage5 df) "arr_delta" "arr_current"
    "arr_prev" _ _ hd5 hc5 hp5
  have hval : (if (List.replicate df.nrows Value.nan).map toNumericCell = [] ∧
        (List.replicate df.nrows Value.nan).map toNumericCell = [] then
      List.replicate (bfStage5 df).nrows Value.nan
    else
      List.zipWith (fun x y => vsub (fillna0 x) (fillna0 y))
        ((List.replicate df.nrows Value.nan).map toNumericCell)
        ((List.replicate df.nrows Value.nan).map toNumericCell)) =
      List.replicate df.nrows (Value.num 0) := by
    rw [List.map_replicate, show toNumericCell Value.nan = Value.nan from rfl,
      nrows_bfStage5]
    cases hn : df.nrows with
    | zero => simp
    | succ k =>
        rw [if_neg (by simp)]
        rw [zipWith_replicate_same,
          show vsub (fillna0 Value.nan) (fillna0 Value.nan) = Value.num 0 from
            by decide]
  have harr6 : (bfStage6 df).getCol "arr_delta" =
      some (List.replicate df.nrows (.num 0)) := by
    unfold bfStage6
    rw [getCol_fzd_ne _ _ _ _ _ (by decide), hfz, hval]
  rw [getCol_build_features_from_bf6_delta df "arr_delta" _ harr6 (by decide)
    (by decide) (by decide) (by decide)]
  rw [List.map_replicate]
  rfl

/-- The mrr analogue of build_features_arr_delta_both_absent. -/
theorem build_features_mrr_delta_both_absent (df : DFrame)
    (hd : df.hasCol "mrr_delta" = false)
    (hc : df.hasCol "mrr_current" = false)
    (hp : df.hasCol "mrr_prev" = false) :
    (build_features df).getCol "mrr_delta" =
      some (List.replicate df.nrows (.num 0)) := by
  have hc5 : (bfStage5 df).getCol "mrr_current" =
      some (List.replicate df.nrows .nan) :=
    getCol_bfStage5_base_absent df _ (by decide) hc (by decide) (by decide)
      (by decide) (by decide) (by decide) (by decide)
  have hp5 : (bfStage5 df).getCol "mrr_prev" =
      some (List.replicate df.nrows .nan) :=
    getCol_bfStage5_carry df _ _ (getCol_bfStage1_mrr_prev_both_absent df hp hc)
      (by decide) (by decide) (by decide)
  have hd5 : (bfStage5 df).hasCol "mrr_delta" = false := by
    rw [hasCol_bfStage5_untouched df _ (by decide) (by decide) (by decide)
      (by decide) (by decide)]
    exact hd
  have hc6 : (fillZeroDeltaStage (bfStage5 df) "arr_delta" "arr_current"
      "arr_prev").getCol "mrr_current" = some (List.replicate df.nrows .nan) := by
    rw [getCol_fzd_ne _ _ _ _ _ (by decide)]
    exact hc5
  have hp6 : (fillZeroDeltaStage (bfStage5 df) "arr_delta" "arr_current"
      "arr_prev").getCol "mrr_prev" = some (List.replicate df.nrows .nan) := by
    rw [getCol_fzd_ne _ _ _ _ _ (by decide)]
    exact hp5
  have hd6 : (fillZeroDeltaStage (bfStage5 df) "arr_delta" "arr_current"
      "arr_prev").hasCol "mrr_delta" = false := by
    rw [hasCol_fzd_ne _ _ _ _ _ (by decide)]
    exact hd5
  have hfz := getCol_fzd_self_eval _ "mrr_delta" "mrr_current"
    "mrr_prev" _ _ hd6 hc6 hp6
  have hval : (if (List.replicate df.nrows Value.nan).map toNumericCell = [] ∧
        (List.replicate df.nrows Value.nan).map toNumericCell = [] then
      List.replicate (fillZeroDeltaStage (bfStage5 df) "arr_delta" "arr_current"
        "arr_prev").nrows Value.nan
    else
      List.zipWith (fun x y => vsub (fillna0 x) (fillna0 y))
        ((List.replicate df.nrows Value.nan).map toNumericCell)
        ((List.replicate df.nrows Value.nan).map toNumericCell)) =
      List.replicate df.nrows (Value.num 0) := by
    rw [List.map_replicate, show toNumericCell Value.nan = Value.nan from rfl,
      nrows_fzd, nrows_bfStage5]
    cases hn : df.nrows with
    | zero => simp
    | succ k =>
        rw [if_neg (by simp)]
        rw [zipWith_replicate_same,
          show vsub (fillna0 Value.nan) (fillna0 Value.nan) = Value.num 0 from
            by decide]
  have hmrr6 : (bfStage6 df).getCol "mrr_delta" =
      some (List.replicate df.nrows (.num 0)) := by
    unfold bfStage6
    rw [hfz, hval]
  rw [getCol_build_features_from_bf6_delta df "mrr_delta" _ hmrr6 (by decide)
    (by decide) (by decide) (by decide)]
  rw [List.map_replicate]
  rfl

/-- C5 as stated: with both current and previous entirely absent, the
derived delta would be NaN for every row. -/
def ClaimC5 : Prop :=
  ∀ df : DFrame,
    (df.hasCol "arr_current" = false → df.hasCol "arr_prev" = false →
      ∀ vs, (build_features df).getCol "arr_delta" = some vs →
        ∀ v ∈ vs, v = Value.nan) ∧
    (df.hasCol "mrr_current" = false → df.hasCol "mrr_prev" = false →
      ∀ vs, (build_features df).getCol "mrr_delta" = some vs →
        ∀ v ∈ vs, v = Value.nan)

/-- One-row frame with no arr columns at all. -/
def c5Frame : DFrame := { nrows := 1, cols := [("account_id", [.str "A"])] }

set_option maxRecDepth 10000 in
set_option maxHeartbeats 1000000 in
/-- Counterexample to C5: on a nonempty frame with both arr columns
absent, arr_delta comes out 0, not NaN (the source's all-NaN branch tests
series emptiness, which only holds for zero-row frames). -/
theorem C5_counterexample : ¬ ClaimC5 := by
  intro h
  have h1 := (h c5Frame).1 (by decide) (by decide) [Value.num 0] (by decide)
    (Value.num 0) (by decide)
  exact absurd h1 (by decide)

/-- C5 amended.  The missing sides of arr_delta/mrr_delta are filled with
0 before subtracting even when both the current and the previous column
are entirely absent: the delta is then the exact 0 for every row (the
stay-NaN branch only triggers on an empty series, i.e. a zero-row frame);
at cell level a missing side subtracts as 0. -/
theorem C5_amended (df : DFrame)
    (hda : df.hasCol "arr_delta" = false)
    (hdm : df.hasCol "mrr_delta" = false) :
    (df.hasCol "arr_current" = false → df.hasCol "arr_prev" = false →
      (build_features df).getCol "arr_delta" =
        some (List.replicate df.nrows (.num 0))) ∧
    (df.hasCol "mrr_current" = false → df.hasCol "mrr_prev" = false →
      (build_features df).getCol "mrr_delta" =
        some (List.replicate df.nrows (.num 0))) ∧
    (∀ q : ℚ, vsub (fillna0 .nan) (fillna0 (.num q)) = .num (0 - q)) ∧
    (∀ q : ℚ, vsub (fillna0 (.num q)) (fillna0 .nan) = .num (q - 0)) :=
  ⟨fun hc hp => build_features_arr_delta_both_absent df hda hc hp,
   fun hc hp => build_features_mrr_delta_both_absent df hdm hc hp,
   fun q => by
     show vsub (Value.num 0) (Value.num q) = Value.num (0 - q)
     rw [show vsub (Value.num 0) (Value.num q) = Value.num (qsub 0 q) from rfl,
       qsub_eq],
   fun q => by
     show vsub (Value.num q) (Value.num 0) = Value.num (q - 0)
     rw [show vsub (Value.num q) (Value.num 0) = Value.num (qsub q 0) from rfl,
       qsub_eq]⟩

set_option maxRecDepth 10000 in
set_option maxHeartbeats 1000000 in
/-- Witness for C5 amended on the one-row frame without arr/mrr columns. -/
theorem C5_amended_witness :
    c5Frame.hasCol "arr_delta" = false ∧
    c5Frame.hasCol "arr_current" = false ∧
    c5Frame.hasCol "arr_prev" = false ∧
    (build_features c5Frame).getCol "arr_delta" =
      some (List.replicate c5Frame.nrows (.num 0)) ∧
    (build_features c5Frame).getCol "mrr_delta" =
      some (List.replicate c5Frame.nrows (.num 0)) :=
  ⟨by decide, by decide, by decide,
   (C5_amended c5Frame (by decide) (by decide)).1 (by decide) (by decide),
   (C5_amended c5Frame (by decide) (by decide)).2.1 (by decide) (by decide)⟩

theorem seatsDelta_eval_aux (out : DFrame) (cs ps : List Value)
    (hd4 : out.hasCol "seats_delta" = false)
    (hc : out.getCol "seats_current" = some cs)
    (hp : out.getCol "seats_prev" = some ps) :
    (if out.hasCol "seats_delta" then out
     else
       out.setCol "seats_delta"
         (List.zipWith vsub (toNumericOpt (out.getCol "seats_current"))
           (toNumericOpt (out.getCol "seats_prev")))).getCol "seats_delta" =
      some (List.zipWith vsub (cs.map toNumericCell) (ps.map toNumericCell)) := by
  simp only [hd4, Bool.false_eq_true, if_false, hc, hp, toNumericOpt]
  exact getCol_setCol_self _ _ _

theorem getCol_bfStage5_seats_delta_eval (df : DFrame) (cs ps : List Value)
    (hd : df.hasCol "seats_delta" = false)
    (hc : (bfStage4 df).getCol "seats_current" = some cs)
    (hp : (bfStage4 df).getCol "seats_prev" = some ps) :
    (bfStage5 df).getCol "seats_delta" =
      some (List.zipWith vsub (cs.map toNumericCell) (ps.map toNumericCell)) := by
  have hd4 : (bfStage4 df).hasCol "seats_delta" = false := by
    rw [hasCol_bfStage4_untouched df _ (by decide) (by decide) (by decide)
      (by decide)]
    exact hd
  exact seatsDelta_eval_aux (bfStage4 df) cs ps hd4 hc hp

theorem getCol_build_features_from_seats_delta (df : DFrame) (vs : List Value)
    (h : (bfStage5 df).getCol "seats_delta" = some vs) :
    (build_features df).getCol "seats_delta" = some (vs.map toNumericCell) := by
  have h6 : (bfStage6 df).getCol "seats_delta" = some vs := by
    unfold bfStage6
    rw [getCol_fzd_ne _ _ _ _ _ (by decide), getCol_fzd_ne _ _ _ _ _ (by decide)]
    exact h
  exact getCol_build_features_from_bf6_delta df _ _ h6 (by decide) (by decide)
    (by decide) (by decide)

theorem toNumericCell_vsub (a b : Value) :
    toNumericCell (vsub a b) = vsub a b := by
  cases a <;> cases b <;> rfl

theorem vsub_fill_toNumeric_self_zero (w : Value) :
    vsub (fillna0 (toNumericCell w)) (fillna0 (toNumericCell w)) = Value.num 0 := by
  cases htn : toNumericCell w with
  | num q =>
      show vsub (fillna0 (Value.num q)) (fillna0 (Value.num q)) = Value.num 0
      rw [show fillna0 (Value.num q) = Value.num q from rfl]
      show Value.num (qsub q q) = Value.num 0
      rw [qsub_eq, sub_self]
  | nan =>
      show vsub (fillna0 Value.nan) (fillna0 Value.nan) = Value.num 0
      decide
  | str s =>
      exact absurd (congrArg Value.isStr htn)
        (by rw [toNumericCell_not_str]; simp [Value.isStr])

set_option maxHeartbeats 2000000 in
/-- With seats_prev absent and seats_current present, build_features sets
seats_prev to a copy of seats_current and the derived seats_delta is the
self-subtraction of the coerced current column (0 where current is
numeric, NaN where it is missing). -/
theorem build_features_seats_prev_filled (df : DFrame) (cs : List Value)
    (hp : df.hasCol "seats_prev" = false)
    (hc : df.getCol "seats_current" = some cs)
    (hd : df.hasCol "seats_delta" = false) :
    (build_features df).getCol "seats_prev" = some cs ∧
    (build_features df).getCol "seats_delta" =
      some (cs.map (fun v => vsub (toNumericCell v) (toNumericCell v))) := by
  have h1 : (bfStage1 df).getCol "seats_prev" = some cs :=
    getCol_bfStage1_seats_prev_absent_cur df cs hp hc
  have h1c : (bfStage1 df).getCol "seats_current" = some cs := by
    rw [getCol_bfStage1_ne df _ (by decide) (by decide) (by decide)]
    exact hc
  have h4p : (bfStage4 df).getCol "seats_prev" = some cs :=
    getCol_bfStage4_carry df _ _ h1 (by decide) (by decide)
  have h4c : (bfStage4 df).getCol "seats_current" = some cs :=
    getCol_bfStage4_carry df _ _ h1c (by decide) (by decide)
  constructor
  · exact getCol_build_features_carry df _ _
      (getCol_bfStage5_carry df _ _ h1 (by decide) (by decide) (by decide))
      (by decide) (by decide) (by decide) (by decide) (by decide) (by decide)
  · have h5 := getCol_bfStage5_seats_delta_eval df cs cs hd h4c h4p
    refine (getCol_build_features_from_seats_delta df _ h5).trans
      (congrArg some ?_)
    rw [List.zipWith_same, List.map_map, List.map_map]
    apply List.map_congr_left
    intro v _
    exact toNumericCell_vsub (toNumericCell v) (toNumericCell v)

/-- A partially populated seats_prev is left untouched all the way to the
output. -/
theorem build_features_seats_prev_untouched (df : DFrame) (vs : List Value)
    (hv : df.getCol "seats_prev" = some vs)
    (hnall : vs.all Value.isna = false) :
    (build_features df).getCol "seats_prev" = some vs :=
  getCol_build_features_carry df _ _
    (getCol_bfStage5_carry df _ _
      (getCol_bfStage1_seats_prev_mixed df vs
        (hasCol_of_getCol_some df _ vs hv) hv hnall)
      (by decide) (by decide) (by decide))
    (by decide) (by decide) (by decide) (by decide) (by decide) (by decide)

/-- With arr_prev absent, arr_delta is 0 in every row (for a well-formed
frame): either both sides are absent, or prev is a copy of current and
both sides fill missing cells with 0 before subtracting. -/
theorem build_features_arr_delta_prev_absent (df : DFrame) (hWF : df.WF)
    (hp : df.hasCol "arr_prev" = false)
    (hd : df.hasCol "arr_delta" = false) :
    ∀ vs, (build_features df).getCol "arr_delta" = some vs →
      ∀ v ∈ vs, v = Value.num 0 := by
  cases hc : df.hasCol "arr_current"
  · intro vs hvs
    rw [build_features_arr_delta_both_absent df hd hc hp] at hvs
    rw [Option.some.injEq] at hvs
    intro v hv
    rw [← hvs] at hv
    exact List.eq_of_mem_replicate hv
  · obtain ⟨cs, hcs⟩ : ∃ cs, df.getCol "arr_current" = some cs := by
      cases hg : df.getCol "arr_current" with
      | none =>
          have hiff := getCol_isSome_iff_hasCol df "arr_current"
          rw [hg, hc] at hiff
          cases hiff
      | some cs => exact ⟨cs, rfl⟩
    have h1p : (bfStage1 df).getCol "arr_prev" = some cs :=
      getCol_bfStage1_arr_prev_absent_cur df cs hp hcs
    have h1c : (bfStage1 df).getCol "arr_current" = some cs := by
      rw [getCol_bfStage1_ne df _ (by decide) (by decide) (by decide)]
      exact hcs
    have h5c : (bfStage5 df).getCol "arr_current" = some cs :=
      getCol_bfStage5_carry df _ _ h1c (by decide) (by decide) (by decide)
    have h5p : (bfStage5 df).getCol "arr_prev" = some cs :=
      getCol_bfStage5_carry df _ _ h1p (by decide) (by decide) (by decide)
    have hd5 : (bfStage5 df).hasCol "arr_delta" = false := by
      rw [hasCol_bfStage5_untouched df _ (by decide) (by decide) (by decide)
        (by decide) (by decide)]
      exact hd
    have hfz := getCol_fzd_self_eval (bfStage5 df) "arr_delta" "arr_current"
      "arr_prev" _ _ hd5 h5c h5p
    have harr6 : (bfStage6 df).getCol "arr_delta" =
        some (if cs.map toNumericCell = [] ∧ cs.map toNumericCell = [] then
            List.replicate (bfStage5 df).nrows Value.nan
          else
            List.zipWith (fun x y => vsub (fillna0 x) (fillna0 y))
              (cs.map toNumericCell) (cs.map toNumericCell)) := by
      unfold bfStage6
      rw [getCol_fzd_ne _ _ _ _ _ (by decide)]
      exact hfz
    have hout := getCol_build_features_from_bf6_delta df _ _ harr6 (by decide)
      (by decide) (by decide) (by decide)
    intro vs hvs
    rw [hout, Option.some.injEq] at hvs
    intro v hv
    rw [← hvs] at hv
    by_cases hcond : cs.map toNumericCell = [] ∧ cs.map toNumericCell = []
    · rw [if_pos hcond] at hv
      have hcs0 : cs = [] := List.map_eq_nil_iff.mp hcond.1
      have hlen : cs.length = df.nrows := WF_getCol_length df _ cs hWF hcs
      rw [hcs0] at hlen
      rw [nrows_bfStage5, ← hlen] at hv
      simp at hv
    · rw [if_neg hcond] at hv
      rw [List.zipWith_same, List.map_map, List.map_map] at hv
      obtain ⟨w, _, hw⟩ := List.mem_map.mp hv
      rw [← hw]
      show toNumericCell (vsub (fillna0 (toNumericCell w))
        (fillna0 (toNumericCell w))) = Value.num 0
      rw [vsub_fill_toNumeric_self_zero]
      rfl

/-- C6 as stated, seats instance: with seats_prev absent the derived
seats_delta would be exactly 0 in every row. -/
def ClaimC6 : Prop :=
  ∀ df : DFrame, df.hasCol "seats_prev" = false →
    ∀ d, (build_features df).getCol "seats_delta" = some d →
      ∀ v ∈ d, v = Value.num 0

/-- One-row frame whose seats_current is missing (NaN). -/
def c6Frame : DFrame := { nrows := 1, cols := [("seats_current", [.nan])] }

set_option maxRecDepth 10000 in
set_option maxHeartbeats 1000000 in
/-- Counterexample to C6: with seats_prev absent but seats_current
missing, the seats delta is NaN - NaN = NaN, not 0 (the seats pair does
not use the fill-with-zero semantics). -/
theorem C6_counterexample : ¬ ClaimC6 := by
  intro h
  have h1 := h c6Frame (by decide) [Value.nan] (by decide) Value.nan (by decide)
  exact absurd h1 (by decide)

/-- C6 amended.  An absent previous-period column is set to a copy of the
current column, so the delta is the self-subtraction of the coerced
current values: exactly 0 at every row whose current value is numeric, NaN
at rows where the current value is itself missing (seats case); a
partially populated previous column is left untouched; for arr (whose
delta fills missing cells with 0) the delta is 0 at every row whenever
arr_prev is absent. -/
theorem C6_amended (df : DFrame) (hWF : df.WF) :
    (∀ cs, df.hasCol "seats_prev" = false →
      df.getCol "seats_current" = some cs →
      df.hasCol "seats_delta" = false →
      (build_features df).getCol "seats_prev" = some cs ∧
      (build_features df).getCol "seats_delta" =
        some (cs.map (fun v => vsub (toNumericCell v) (toNumericCell v)))) ∧
    (∀ v : Value, (toNumericCell v).isna = false →
      vsub (toNumericCell v) (toNumericCell v) = Value.num 0) ∧
    (∀ v : Value, (toNumericCell v).isna = true →
      vsub (toNumericCell v) (toNumericCell v) = Value.nan) ∧
    (∀ vs, df.getCol "seats_prev" = some vs → vs.all Value.isna = false →
      (build_features df).getCol "seats_prev" = some vs) ∧
    (df.hasCol "arr_prev" = false → df.hasCol "arr_delta" = false →
      ∀ vs, (build_features df).getCol "arr_delta" = some vs →
        ∀ v ∈ vs, v = Value.num 0) := by
  refine ⟨?_, ?_, ?_, ?_, ?_⟩
  · intro cs hp hc hd
    exact build_features_seats_prev_filled df cs hp hc hd
  · intro v hnum
    cases htn : toNumericCell v with
    | num q =>
        show Value.num (qsub q q) = Value.num 0
        rw [qsub_eq, sub_self]
    | nan => rw [htn] at hnum; cases hnum
    | str s =>
        exact absurd (congrArg Value.isStr htn)
          (by rw [toNumericCell_not_str]; simp [Value.isStr])
  · intro v hna
    cases htn : toNumericCell v with
    | num q => rw [htn] at hna; cases hna
    | nan => rfl
    | str s => rw [htn] at hna; cases hna
  · intro vs hv hnall
    exact build_features_seats_prev_untouched df vs hv hnall
  · intro hp hd
    exact build_features_arr_delta_prev_absent df hWF hp hd

/-- Two-row frame with seats_current partly numeric, partly a string that
coerces to NaN. -/
def c6wFrame : DFrame :=
  { nrows := 2, cols := [("seats_current", [.num 3, .str "x"])] }

set_option maxRecDepth 10000 in
set_option maxHeartbeats 1000000 in
/-- Witness for C6 amended on the two-row frame. -/
theorem C6_amended_witness :
    c6wFrame.WF ∧
    c6wFrame.hasCol "seats_prev" = false ∧
    c6wFrame.getCol "seats_current" = some [.num 3, .str "x"] ∧
    (build_features c6wFrame).getCol "seats_prev" =
      some [.num 3, .str "x"] ∧
    (build_features c6wFrame).getCol "seats_delta" =
      some ([Value.num 3, Value.str "x"].map
        (fun v => vsub (toNumericCell v) (toNumericCell v))) :=
  ⟨by intro p hp; fin_cases hp <;> rfl,
   by decide, by decide,
   ((C6_amended c6wFrame (by intro p hp; fin_cases hp <;> rfl)).1
     [.num 3, .str "x"] (by decide) (by decide) (by decide)).1,
   ((C6_amended c6wFrame (by intro p hp; fin_cases hp <;> rfl)).1
     [.num 3, .str "x"] (by decide) (by decide) (by decide)).2⟩

theorem toNumericCell_safeDiv (a b : Value) :
    toNumericCell (safeDiv a b) = safeDiv a b := by
  cases b with
  | num q =>
      by_cases hq : q = 0
      · simp [safeDiv, hq]
        rfl
      · cases a <;> simp [safeDiv, hq, toNumericCell]
  | nan => rfl
  | str s => rfl

theorem map_toNumericCell_zipWith_safeDiv (A B : List Value) :
    (List.zipWith safeDiv A B).map toNumericCell = List.zipWith safeDiv A B := by
  induction A generalizing B with
  | nil => rfl
  | cons a as ih =>
      cases B with
      | nil => rfl
      | cons b bs => simp [toNumericCell_safeDiv, ih]

/-- The percent-change stage evaluated on its target column. -/
theorem getCol_pct_self_eval (out : DFrame) (pcCol dc pv : String)
    (ds ps : List Value) (hpc : out.hasCol pcCol = false)
    (hd : out.getCol dc = some ds) (hp : out.getCol pv = some ps) :
    (pctChangeStage out pcCol dc pv).getCol pcCol =
      some (List.zipWith safeDiv (ds.map toNumericCell) (ps.map toNumericCell)) := by
  unfold pctChangeStage
  simp only [hpc, Bool.false_eq_true, if_false, hd, hp, toNumericOpt]
  exact getCol_setCol_self _ _ _

theorem hasCol_bfStage4_base (df : DFrame) (c : String) (hmem : c ∈ BASE_COLS) :
    (bfStage4 df).hasCol c = true := by
  unfold bfStage4
  rw [hasCol_mapCol]
  unfold bfStage3
  rw [hasCol_mapFold]
  unfold bfStage2
  rw [hasCol_ensureFold, contains_eq_true_of_mem _ _ hmem]
  simp

theorem hasCol_bfStage5_seats_delta (df : DFrame) :
    (bfStage5 df).hasCol "seats_delta" = true := by
  unfold bfStage5
  cases h : (bfStage4 df).hasCol "seats_delta"
  · simp only [h, Bool.false_eq_true, if_false]
    rw [hasCol_setCol]
    simp
  · simpa [h] using h

theorem getCol_build_features_from_bf7 (df : DFrame) (c : String)
    (vs : List Value) (h : (bfStage7 df).getCol c = some vs)
    (hmem : c ∈ NUM_LIKE_FINAL) :
    (build_features df).getCol c = some (vs.map toNumericCell) := by
  unfold build_features
  rw [getCol_mapFold_mem _ _ _ _ (by decide) hmem]
  unfold bfStage8
  rw [getCol_compFold_of_hasCol _ _ _ (hasCol_of_getCol_some _ _ _ h), h]
  rfl

theorem getCol_build_features_from_bf7_plain (df : DFrame) (c : String)
    (vs : List Value) (h : (bfStage7 df).getCol c = some vs)
    (h14 : c ∉ NUM_LIKE_FINAL) :
    (build_features df).getCol c = some vs := by
  unfold build_features
  rw [getCol_mapFold_not_mem _ _ _ _ h14]
  unfold bfStage8
  rw [getCol_compFold_of_hasCol _ _ _ (hasCol_of_getCol_some _ _ _ h)]
  exact h

/-- The derived seats percent change in the output: safe_div of the output
delta by the coerced output prev column. -/
theorem build_features_seats_pct (df : DFrame)
    (h1 : df.hasCol "seats_pct_change" = false) :
    ∃ d p pc, (build_features df).getCol "seats_delta" = some d ∧
      (build_features df).getCol "seats_prev" = some p ∧
      (build_features df).getCol "seats_pct_change" = some pc ∧
      pc = List.zipWith safeDiv d (p.map toNumericCell) := by
  have hd6 : (bfStage6 df).hasCol "seats_delta" = true := by
    unfold bfStage6
    rw [hasCol_fzd_ne _ _ _ _ _ (by decide), hasCol_fzd_ne _ _ _ _ _ (by decide)]
    exact hasCol_bfStage5_seats_delta df
  have hp6 : (bfStage6 df).hasCol "seats_prev" = true := by
    unfold bfStage6
    rw [hasCol_fzd_ne _ _ _ _ _ (by decide), hasCol_fzd_ne _ _ _ _ _ (by decide),
      hasCol_bfStage5_ne _ _ (by decide)]
    exact hasCol_bfStage4_base df _ (by decide)
  obtain ⟨ds, hds⟩ : ∃ ds, (bfStage6 df).getCol "seats_delta" = some ds := by
    cases hg : (bfStage6 df).getCol "seats_delta" with
    | none =>
        have hiff := getCol_isSome_iff_hasCol (bfStage6 df) "seats_delta"
        rw [hg, hd6] at hiff
        cases hiff
    | some ds => exact ⟨ds, rfl⟩
  obtain ⟨ps, hps⟩ : ∃ ps, (bfStage6 df).getCol "seats_prev" = some ps := by
    cases hg : (bfStage6 df).getCol "seats_prev" with
    | none =>
        have hiff := getCol_isSome_iff_hasCol (bfStage6 df) "seats_prev"
        rw [hg, hp6] at hiff
        cases hiff
    | some ps => exact ⟨ps, rfl⟩
  have hpc6 : (bfStage6 df).hasCol "seats_pct_change" = false := by
    unfold bfStage6
    rw [hasCol_fzd_ne _ _ _ _ _ (by decide), hasCol_fzd_ne _ _ _ _ _ (by decide),
      hasCol_bfStage5_untouched df _ (by decide) (by decide) (by decide)
        (by decide) (by decide)]
    exact h1
  have hstage := getCol_pct_self_eval (bfStage6 df) "seats_pct_change"
    "seats_delta" "seats_prev" ds ps hpc6 hds hps
  have hpc7 : (bfStage7 df).getCol "seats_pct_change" =
      some (List.zipWith safeDiv (ds.map toNumericCell) (ps.map toNumericCell)) := by
    unfold bfStage7
    rw [getCol_pct_ne _ _ _ _ _ (by decide), getCol_pct_ne _ _ _ _ _ (by decide)]
    exact hstage
  have hd7 : (bfStage7 df).getCol "seats_delta" = some ds := by
    unfold bfStage7
    rw [getCol_pct_ne _ _ _ _ _ (by decide), getCol_pct_ne _ _ _ _ _ (by decide),
      getCol_pct_ne _ _ _ _ _ (by decide)]
    exact hds
  have hp7 : (bfStage7 df).getCol "seats_prev" = some ps := by
    unfold bfStage7
    rw [getCol_pct_ne _ _ _ _ _ (by decide), getCol_pct_ne _ _ _ _ _ (by decide),
      getCol_pct_ne _ _ _ _ _ (by decide)]
    exact hps
  refine ⟨ds.map toNumericCell, ps,
    List.zipWith safeDiv (ds.map toNumericCell) (ps.map toNumericCell),
    getCol_build_features_from_bf7 df _ _ hd7 (by decide),
    getCol_build_features_from_bf7_plain df _ _ hp7 (by decide), ?_, rfl⟩
  rw [getCol_build_features_from_bf7 df _ _ hpc7 (by decide),
    map_toNumericCell_zipWith_safeDiv]

/-- The derived arr percent change in the output. -/
theorem build_features_arr_pct (df : DFrame)
    (h2 : df.hasCol "arr_pct_change" = false) :
    ∃ d p pc, (build_features df).getCol "arr_delta" = some d ∧
      (build_features df).getCol "arr_prev" = some p ∧
      (build_features df).getCol "arr_pct_change" = some pc ∧
      pc = List.zipWith safeDiv d (p.map toNumericCell) := by
  have hd6 : (bfStage6 df).hasCol "arr_delta" = true := by
    unfold bfStage6
    rw [hasCol_fzd_ne _ _ _ _ _ (by decide)]
    exact hasCol_fzd_self _ _ _ _
  have hp6 : (bfStage6 df).hasCol "arr_prev" = true := by
    unfold bfStage6
    rw [hasCol_fzd_ne _ _ _ _ _ (by decide), hasCol_fzd_ne _ _ _ _ _ (by decide),
      hasCol_bfStage5_ne _ _ (by decide)]
    exact hasCol_bfStage4_base df _ (by decide)
  obtain ⟨ds, hds⟩ : ∃ ds, (bfStage6 df).getCol "arr_delta" = some ds := by
    cases hg : (bfStage6 df).getCol "arr_delta" with
    | none =>
        have hiff := getCol_isSome_iff_hasCol (bfStage6 df) "arr_delta"
        rw [hg, hd6] at hiff
        cases hiff
    | some ds => exact ⟨ds, rfl⟩
  obtain ⟨ps, hps⟩ : ∃ ps, (bfStage6 df).getCol "arr_prev" = some ps := by
    cases hg : (bfStage6 df).getCol "arr_prev" with
    | none =>
        have hiff := getCol_isSome_iff_hasCol (bfStage6 df) "arr_prev"
        rw [hg, hp6] at hiff
        cases hiff
    | some ps => exact ⟨ps, rfl⟩
  have hA1ds : (pctChangeStage (bfStage6 df) "seats_pct_change" "seats_delta"
      "seats_prev").getCol "arr_delta" = some ds := by
    rw [getCol_pct_ne _ _ _ _ _ (by decide)]
    exact hds
  have hA1ps : (pctChangeStage (bfStage6 df) "seats_pct_change" "seats_delta"
      "seats_prev").getCol "arr_prev" = some ps := by
    rw [getCol_pct_ne _ _ _ _ _ (by decide)]
    exact hps
  have hpcA1 : (pctChangeStage (bfStage6 df) "seats_pct_change" "seats_delta"
      "seats_prev").hasCol "arr_pct_change" = false := by
    rw [hasCol_pct_ne _ _ _ _ _ (by decide)]
    unfold bfStage6
    rw [hasCol_fzd_ne _ _ _ _ _ (by decide), hasCol_fzd_ne _ _ _ _ _ (by decide),
      hasCol_bfStage5_untouched df _ (by decide) (by decide) (by decide)
        (by decide) (by decide)]
    exact h2
  have hstage := getCol_pct_self_eval _ "arr_pct_change" "arr_delta" "arr_prev"
    ds ps hpcA1 hA1ds hA1ps
  have hpc7 : (bfStage7 df).getCol "arr_pct_change" =
      some (List.zipWith safeDiv (ds.map toNumericCell) (ps.map toNumericCell)) := by
    unfold bfStage7
    rw [getCol_pct_ne _ _ _ _ _ (by decide)]
    exact hstage
  have hd7 : (bfStage7 df).getCol "arr_delta" = some ds := by
    unfold bfStage7
    rw [getCol_pct_ne _ _ _ _ _ (by decide), getCol_pct_ne _ _ _ _ _ (by decide),
      getCol_pct_ne _ _ _ _ _ (by decide)]
    exact hds
  have hp7 : (bfStage7 df).getCol "arr_prev" = some ps := by
    unfold bfStage7
    rw [getCol_pct_ne _ _ _ _ _ (by decide), getCol_pct_ne _ _ _ _ _ (by decide),
      getCol_pct_ne _ _ _ _ _ (by decide)]
    exact hps
  refine ⟨ds.map toNumericCell, ps,
    List.zipWith safeDiv (ds.map toNumericCell) (ps.map toNumericCell),
    getCol_build_features_from_bf7 df _ _ hd7 (by decide),
    getCol_build_features_from_bf7_plain df _ _ hp7 (by decide), ?_, rfl⟩
  rw [getCol_build_features_from_bf7 df _ _ hpc7 (by decide),
    map_toNumericCell_zipWith_safeDiv]

/-- The derived mrr percent change in the output. -/
theorem build_features_mrr_pct (df : DFrame)
    (h3 : df.hasCol "mrr_pct_change" = false) :
    ∃ d p pc, (build_features df).getCol "mrr_delta" = some d ∧
      (build_features df).getCol "mrr_prev" = some p ∧
      (build_features df).getCol "mrr_pct_change" = some pc ∧
      pc = List.zipWith safeDiv d (p.map toNumericCell) := by
  have hd6 : (bfStage6 df).hasCol "mrr_delta" = true := by
    unfold bfStage6
    exact hasCol_fzd_self _ _ _ _
  have hp6 : (bfStage6 df).hasCol "mrr_prev" = true := by
    unfold bfStage6
    rw [hasCol_fzd_ne _ _ _ _ _ (by decide), hasCol_fzd_ne _ _ _ _ _ (by decide),
      hasCol_bfStage5_ne _ _ (by decide)]
    exact hasCol_bfStage4_base df _ (by decide)
  obtain ⟨ds, hds⟩ : ∃ ds, (bfStage6 df).getCol "mrr_delta" = some ds := by
    cases hg : (bfStage6 df).getCol "mrr_delta" with
    | none =>
        have hiff := getCol_isSome_iff_hasCol (bfStage6 df) "mrr_delta"
        rw [hg, hd6] at hiff
        cases hiff
    | some ds => exact ⟨ds, rfl⟩
  obtain ⟨ps, hps⟩ : ∃ ps, (bfStage6 df).getCol "mrr_prev" = some ps := by
    cases hg : (bfStage6 df).getCol "mrr_prev" with
    | none =>
        have hiff := getCol_isSome_iff_hasCol (bfStage6 df) "mrr_prev"
        rw [hg, hp6] at hiff
        cases hiff
    | some ps => exact ⟨ps, rfl⟩
  have hA2ds : (pctChangeStage (pctChangeStage (bfStage6 df) "seats_pct_change"
      "seats_delta" "seats_prev") "arr_pct_change" "arr_delta"
      "arr_prev").getCol "mrr_delta" = some ds := by
    rw [getCol_pct_ne _ _ _ _ _ (by decide), getCol_pct_ne _ _ _ _ _ (by decide)]
    exact hds
  have hA2ps : (pctChangeStage (pctChangeStage (bfStage6 df) "seats_pct_change"
      "seats_delta" "seats_prev") "arr_pct_change" "arr_delta"
      "arr_prev").getCol "mrr_prev" = some ps := by
    rw [getCol_pct_ne _ _ _ _ _ (by decide), getCol_pct_ne _ _ _ _ _ (by decide)]
    exact hps
  have hpcA2 : (pctChangeStage (pctChangeStage (bfStage6 df) "seats_pct_change"
      "seats_delta" "seats_prev") "arr_pct_change" "arr_delta"
      "arr_prev").hasCol "mrr_pct_change" = false := by
    rw [hasCol_pct_ne _ _ _ _ _ (by decide), hasCol_pct_ne _ _ _ _ _ (by decide)]
    unfold bfStage6
    rw [hasCol_fzd_ne _ _ _ _ _ (by decide), hasCol_fzd_ne _ _ _ _ _ (by decide),
      hasCol_bfStage5_untouched df _ (by decide) (by decide) (by decide)
        (by decide) (by decide)]
    exact h3
  have hstage := getCol_pct_self_eval _ "mrr_pct_change" "mrr_delta" "mrr_prev"
    ds ps hpcA2 hA2ds hA2ps
  have hpc7 : (bfStage7 df).getCol "mrr_pct_change" =
      some (List.zipWith safeDiv (ds.map toNumericCell) (ps.map toNumericCell)) := by
    unfold bfStage7
    exact hstage
  have hd7 : (bfStage7 df).getCol "mrr_delta" = some ds := by
    unfold bfStage7
    rw [getCol_pct_ne _ _ _ _ _ (by decide), getCol_pct_ne _ _ _ _ _ (by decide),
      getCol_pct_ne _ _ _ _ _ (by decide)]
    exact hds
  have hp7 : (bfStage7 df).getCol "mrr_prev" = some ps := by
    unfold bfStage7
    rw [getCol_pct_ne _ _ _ _ _ (by decide), getCol_pct_ne _ _ _ _ _ (by decide),
      getCol_pct_ne _ _ _ _ _ (by decide)]
    exact hps
  refine ⟨ds.map toNumericCell, ps,
    List.zipWith safeDiv (ds.map toNumericCell) (ps.map toNumericCell),
    getCol_build_features_from_bf7 df _ _ hd7 (by decide),
    getCol_build_features_from_bf7_plain df _ _ hp7 (by decide), ?_, rfl⟩
  rw [getCol_build_features_from_bf7 df _ _ hpc7 (by decide),
    map_toNumericCell_zipWith_safeDiv]

/-- C7.  Each derived percent change (seats, arr, mrr) equals safe_div of
the output delta column by the coerced previous column: ordinary division
when the previous value is a nonzero numeric, NaN (never an infinity) when
the previous value is exactly 0 or missing, NaN propagated from a missing
delta. -/
theorem C7_pct_change_safe_div (df : DFrame)
    (h1 : df.hasCol "seats_pct_change" = false)
    (h2 : df.hasCol "arr_pct_change" = false)
    (h3 : df.hasCol "mrr_pct_change" = false) :
    (∃ d p pc, (build_features df).getCol "seats_delta" = some d ∧
      (build_features df).getCol "seats_prev" = some p ∧
      (build_features df).getCol "seats_pct_change" = some pc ∧
      pc = List.zipWith safeDiv d (p.map toNumericCell)) ∧
    (∃ d p pc, (build_features df).getCol "arr_delta" = some d ∧
      (build_features df).getCol "arr_prev" = some p ∧
      (build_features df).getCol "arr_pct_change" = some pc ∧
      pc = List.zipWith safeDiv d (p.map toNumericCell)) ∧
    (∃ d p pc, (build_features df).getCol "mrr_delta" = some d ∧
      (build_features df).getCol "mrr_prev" = some p ∧
      (build_features df).getCol "mrr_pct_change" = some pc ∧
      pc = List.zipWith safeDiv d (p.map toNumericCell)) ∧
    (∀ x : Value, safeDiv x (.num 0) = .nan) ∧
    (∀ x : Value, safeDiv x .nan = .nan) ∧
    (∀ q : ℚ, safeDiv .nan (.num q) = .nan) ∧
    (∀ a q : ℚ, q ≠ 0 → safeDiv (.num a) (.num q) = .num (a / q)) :=
  ⟨build_features_seats_pct df h1,
   build_features_arr_pct df h2,
   build_features_mrr_pct df h3,
   fun x => by simp [safeDiv],
   fun x => by cases x <;> rfl,
   fun q => by
     by_cases hq : q = 0
     · simp [safeDiv, hq]
     · simp [safeDiv, hq],
   fun a q hq => by
     show safeDiv (Value.num a) (Value.num q) = Value.num (a / q)
     rw [show safeDiv (Value.num a) (Value.num q) =
       if q = 0 then Value.nan else Value.num (qdiv a q) from rfl,
       if_neg hq, qdiv_eq]⟩

/-- One-row frame exercising the percent-change derivation with a zero
previous seats value. -/
def c7Frame : DFrame :=
  { nrows := 1,
    cols := [("seats_current", [.num 4]), ("seats_prev", [.num 0])] }

set_option maxRecDepth 10000 in
set_option maxHeartbeats 1000000 in
/-- Witness for C7: with seats_prev exactly 0 the derived percent change
is NaN, not an infinity. -/
theorem C7_witness :
    c7Frame.hasCol "seats_pct_change" = false ∧
    (∃ d p pc, (build_features c7Frame).getCol "seats_delta" = some d ∧
      (build_features c7Frame).getCol "seats_prev" = some p ∧
      (build_features c7Frame).getCol "seats_pct_change" = some pc ∧
      pc = List.zipWith safeDiv d (p.map toNumericCell)) ∧
    safeDiv (Value.num 4) (.num 0) = .nan :=
  ⟨by decide,
   (C7_pct_change_safe_div c7Frame (by decide) (by decide) (by decide)).1,
   (C7_pct_change_safe_div c7Frame (by decide) (by decide) (by decide)).2.2.2.1
     (Value.num 4)⟩

theorem nrows_selectCols (b : DFrame) (names : List String) :
    (selectCols b names).nrows = b.nrows := rfl

theorem getCol_selectCols_mem (b : DFrame) (names : List String) (c : String)
    (h : c ∈ names) :
    (selectCols b names).getCol c = some ((b.getCol c).getD []) := by
  unfold selectCols DFrame.getCol
  induction names with
  | nil => cases h
  | cons a as ih =>
      simp only [List.map_cons]
      by_cases hac : a = c
      · subst hac
        rw [List.find?_cons_of_pos _ (by simp)]
        rfl
      · rw [List.find?_cons_of_neg _ (by simp [hac])]
        rcases List.mem_cons.mp h with h1 | h1
        · exact absurd h1.symm hac
        · exact ih h1

theorem WF_foldl_condMap (l : List String) (f : Value → Value) (df : DFrame)
    (hdf : df.WF) :
    (l.foldl (fun acc x => if acc.hasCol x then acc.mapCol x f else acc) df).WF := by
  induction l generalizing df with
  | nil => exact hdf
  | cons a as ih =>
      rw [List.foldl_cons]
      apply ih
      cases h : df.hasCol a
      · simpa [h] using hdf
      · simp only [h, if_true]
        exact WF_mapCol df a f hdf

theorem hasCol_validate_df (dfm : DFrame) (req : List String) (c : String) :
    (validate_and_coerce dfm req).df.hasCol c = dfm.hasCol c := by
  simp only [validate_and_coerce]
  unfold validatePlanTierStage validateSubStage
  rw [hasCol_condMap, hasCol_condMap]
  unfold validateNumericStage
  rw [hasCol_foldl_condMap]
  unfold validateAccountStage
  rw [hasCol_condMap]

theorem nrows_validate_df (dfm : DFrame) (req : List String) :
    (validate_and_coerce dfm req).df.nrows = dfm.nrows := by
  simp only [validate_and_coerce]
  unfold validatePlanTierStage validateSubStage
  rw [nrows_condMap, nrows_condMap]
  unfold validateNumericStage
  rw [nrows_foldl_condMap]
  unfold validateAccountStage
  rw [nrows_condMap]

theorem WF_validate_df (dfm : DFrame) (req : List String) (hdf : dfm.WF) :
    (validate_and_coerce dfm req).df.WF := by
  simp only [validate_and_coerce]
  have h1 : (validateAccountStage dfm).WF := by
    unfold validateAccountStage
    cases h : dfm.hasCol "account_id"
    · simpa [h] using hdf
    · simp only [h, if_true]
      exact WF_mapCol dfm _ _ hdf
  have h2 : (validateNumericStage (validateAccountStage dfm)).WF := by
    unfold validateNumericStage
    exact WF_foldl_condMap _ _ _ h1
  have h3 : (validateSubStage (validateNumericStage
      (validateAccountStage dfm))).WF := by
    unfold validateSubStage
    cases h : (validateNumericStage (validateAccountStage dfm)).hasCol
        "subscription_end_in_current_period"
    · simpa [h] using h2
    · simp only [h, if_true]
      exact WF_mapCol _ _ _ h2
  unfold validatePlanTierStage
  cases h : (validateSubStage (validateNumericStage
      (validateAccountStage dfm))).hasCol "plan_tier"
  · simpa [h] using h3
  · simp only [h, if_true]
    exact WF_mapCol _ _ _ h3

theorem nrows_apply_mapping (df : DFrame) (mapping : List (String × String)) :
    (apply_mapping df mapping).nrows = df.nrows := by
  unfold apply_mapping
  have hstep1 : ∀ (l : List (String × String)) (acc : DFrame),
      (l.foldl (fun acc p =>
        if p.2 = "" then acc
        else
          match df.getCol p.2 with
          | none => acc
          | some vs => acc.setCol p.1 vs) acc).nrows = acc.nrows := by
    intro l
    induction l with
    | nil => intro acc; rfl
    | cons a as ih =>
        intro acc
        rw [List.foldl_cons, ih]
        by_cases ha : a.2 = ""
        · simp [ha]
        · simp only [ha, if_false]
          cases df.getCol a.2 <;> simp
  have hstep2 : ∀ (l : List String) (acc : DFrame),
      (l.foldl (fun acc c =>
        match df.getCol c with
        | some vs => acc.setCol c vs
        | none => acc) acc).nrows = acc.nrows := by
    intro l
    induction l with
    | nil => intro acc; rfl
    | cons a as ih =>
        intro acc
        rw [List.foldl_cons, ih]
        cases df.getCol a <;> simp
  rw [hstep2, hstep1]

theorem WF_apply_mapping (df : DFrame) (mapping : List (String × String))
    (hdf : df.WF) : (apply_mapping df mapping).WF := by
  unfold apply_mapping
  have hstep1 : ∀ (l : List (String × String)) (acc : DFrame), acc.WF →
      acc.nrows = df.nrows →
      (l.foldl (fun acc p =>
        if p.2 = "" then acc
        else
          match df.getCol p.2 with
          | none => acc
          | some vs => acc.setCol p.1 vs) acc).WF ∧
      (l.foldl (fun acc p =>
        if p.2 = "" then acc
        else
          match df.getCol p.2 with
          | none => acc
          | some vs => acc.setCol p.1 vs) acc).nrows = df.nrows := by
    intro l
    induction l with
    | nil => intro acc hacc hn; exact ⟨hacc, hn⟩
    | cons a as ih =>
        intro acc hacc hn
        rw [List.foldl_cons]
        have hpres : ∀ b : DFrame, b.WF → b.nrows = df.nrows →
            (if a.2 = "" then b
             else
               match df.getCol a.2 with
               | none => b
               | some vs => b.setCol a.1 vs).WF ∧
            (if a.2 = "" then b
             else
               match df.getCol a.2 with
               | none => b
               | some vs => b.setCol a.1 vs).nrows = df.nrows := by
          intro b hb hbn
          by_cases ha : a.2 = ""
          · simp [ha, hb, hbn]
          · simp only [ha, if_false]
            cases hg : df.getCol a.2 with
            | none => exact ⟨hb, hbn⟩
            | some vs =>
                refine ⟨WF_setCol b a.1 vs hb ?_, by simp [hbn]⟩
                rw [hbn]
                exact WF_getCol_length df a.2 vs hdf hg
        obtain ⟨hw, hn2⟩ := hpres acc hacc hn
        exact ih _ hw hn2
  have hstep2 : ∀ (l : List String) (acc : DFrame), acc.WF →
      acc.nrows = df.nrows →
      (l.foldl (fun acc c =>
        match df.getCol c with
        | some vs => acc.setCol c vs
        | none => acc) acc).WF := by
    intro l
    induction l with
    | nil => intro acc hacc _; exact hacc
    | cons a as ih =>
        intro acc hacc hn
        rw [List.foldl_cons]
        cases hg : df.getCol a with
        | none => exact ih _ hacc (by simp [hg, hn])
        | some vs =>
            refine ih _ (WF_setCol acc a vs hacc ?_) (by simp [hg, hn])
            rw [hn]
            exact WF_getCol_length df a vs hdf hg
  obtain ⟨hw1, hn1⟩ := hstep1 mapping
    { nrows := df.nrows, cols := [] } (fun p hp => absurd hp (by simp)) rfl
  exact hstep2 _ _ hw1 hn1

/-- Numeric greater-or-equal on cells (false on NaN or strings), for the
descending-order statement. -/
def vge (a b : Value) : Bool :=
  match a, b with
  | .num x, .num y => y ≤ x
  | _, _ => false

/-- Descending order of a cell list under vge. -/
def sortedDescBool : List Value → Bool
  | [] => true
  | [_] => true
  | a :: b :: rest => vge a b && sortedDescBool (b :: rest)

/-- The mapped-and-validated frame of a successful scoring call, the
probability column in model order, and the account order: what a scoring
call produces before any caller-side presentation. -/
theorem score_ok_spec (model : DFrame → List ℚ) (df : DFrame)
    (mapping : List (String × String))
    (hmiss : (schemaOf df mapping).missing_required = []) :
    ∃ out, score_dataframe model df mapping = Except.ok out ∧
      out.nrows = df.nrows ∧
      out.getCol "churn_probability" =
        some ((model (modelInputOf df mapping)).map Value.num) ∧
      out.getCol "account_id" =
        some (((schemaOf df mapping).df.getCol "account_id").getD []) ∧
      (df.WF →
        (((schemaOf df mapping).df.getCol "account_id").getD []).length =
          df.nrows) := by
  have haccm : (apply_mapping df mapping).hasCol "account_id" = true := by
    cases hfalse : (apply_mapping df mapping).hasCol "account_id"
    · exfalso
      have hmem : "account_id" ∈ (schemaOf df mapping).missing_required := by
        rw [schemaOf, validate_missing_mem]
        exact Or.inr ⟨rfl, hfalse⟩
      rw [hmiss] at hmem
      cases hmem
    · rfl
  have haccv : (schemaOf df mapping).df.hasCol "account_id" = true := by
    rw [schemaOf, hasCol_validate_df]
    exact haccm
  obtain ⟨ids, hids⟩ : ∃ ids,
      (schemaOf df mapping).df.getCol "account_id" = some ids := by
    cases hg : (schemaOf df mapping).df.getCol "account_id" with
    | none =>
        have hiff := getCol_isSome_iff_hasCol (schemaOf df mapping).df
          "account_id"
        rw [hg, haccv] at hiff
        cases hiff
    | some ids => exact ⟨ids, rfl⟩
  simp only [score_dataframe]
  rw [if_neg (fun hcon => hcon hmiss)]
  refine ⟨_, rfl, ?_, ?_, ?_, ?_⟩
  · rw [nrows_selectCols, nrows_setCol, nrows_setCol, nrows_setCol,
      nrows_setCol, nrows_setCol, nrows_setCol, nrows_build_features,
      schemaOf, nrows_validate_df, nrows_apply_mapping]
  · rw [getCol_selectCols_mem _ _ _ (by simp)]
    rw [getCol_setCol_ne _ _ _ _ (by decide), getCol_setCol_ne _ _ _ _ (by decide),
      getCol_setCol_ne _ _ _ _ (by decide), getCol_setCol_ne _ _ _ _ (by decide),
      getCol_setCol_ne _ _ _ _ (by decide), getCol_setCol_self]
    unfold modelInputOf featuresOf
    rfl
  · rw [getCol_selectCols_mem _ _ _ (by simp)]
    rw [getCol_setCol_ne _ _ _ _ (by decide), getCol_setCol_ne _ _ _ _ (by decide),
      getCol_setCol_ne _ _ _ _ (by decide), getCol_setCol_ne _ _ _ _ (by decide),
      getCol_setCol_ne _ _ _ _ (by decide), getCol_setCol_ne _ _ _ _ (by decide)]
    rw [show (build_features (schemaOf df mapping).df).getCol "account_id" =
      (schemaOf df mapping).df.getCol "account_id" from
      getCol_build_features_account _]
  · intro hWF
    have hvWF : (schemaOf df mapping).df.WF := by
      rw [schemaOf]
      exact WF_validate_df _ _ (WF_apply_mapping df mapping hWF)
    have hlen := WF_getCol_length _ _ _ hvWF hids
    rw [hids]
    simp only [Option.getD_some]
    rw [hlen, schemaOf, nrows_validate_df, nrows_apply_mapping]

/-- C3 as stated: every successful scoring call returns one row per input
row AND a table sorted by descending churn probability. -/
def ClaimC3 : Prop :=
  ∀ (model : DFrame → List ℚ) (df : DFrame)
    (mapping : List (String × String)) (out : DFrame),
    score_dataframe model df mapping = Except.ok out →
    out.nrows = df.nrows ∧
    sortedDescBool ((out.getCol "churn_probability").getD []) = true

/-- Two-row frame with every required field present. -/
def c3Frame : DFrame :=
  { nrows := 2,
    cols := [("account_id", [.str "A", .str "B"]),
             ("plan_tier", [.str "Pro", .str "Basic"]),
             ("seats_current", [.num 10, .num 5]),
             ("arr_current", [.num 1200, .num 600]),
             ("usage_count_current", [.num 40, .num 50]),
             ("usage_count_prev", [.num 100, .num 50]),
             ("tickets_opened_current", [.num 5, .num 1]),
             ("tickets_opened_prev", [.num 1, .num 1])] }

/-- A model whose positive-class probabilities come out ascending. -/
def c3Model : DFrame → List ℚ := fun _ => [mkRat 1 10, mkRat 9 10]

set_option maxRecDepth 10000 in
set_option maxHeartbeats 1000000 in
/-- Counterexample to C3: score_dataframe never sorts, so a model emitting
ascending probabilities yields an output in original row order, not in
descending probability order. -/
theorem C3_counterexample : ¬ ClaimC3 := by
  intro h
  obtain ⟨out, hok, _, hprob, _, _⟩ :=
    score_ok_spec c3Model c3Frame [] (by decide)
  have hsorted := (h c3Model c3Frame [] out hok).2
  rw [hprob] at hsorted
  exact absurd hsorted (by decide)

/-- C3 amended.  A successful score_dataframe call returns exactly one row
per input row, in the original input order: the churn_probability column
is the model's probability sequence in input-row order (no sorting is
applied), and the account_id column is the validated input id column
unchanged; for a well-formed input the id column has exactly one entry per
input row. -/
theorem C3_amended (model : DFrame → List ℚ) (df : DFrame)
    (mapping : List (String × String))
    (hmiss : (schemaOf df mapping).missing_required = []) :
    ∃ out, score_dataframe model df mapping = Except.ok out ∧
      out.nrows = df.nrows ∧
      out.getCol "churn_probability" =
        some ((model (modelInputOf df mapping)).map Value.num) ∧
      out.getCol "account_id" =
        some (((schemaOf df mapping).df.getCol "account_id").getD []) ∧
      (df.WF →
        (((schemaOf df mapping).df.getCol "account_id").getD []).length =
          df.nrows) :=
  score_ok_spec model df mapping hmiss

set_option maxRecDepth 10000 in
set_option maxHeartbeats 1000000 in
/-- Witness for C3 amended on the two-row frame with the ascending-output
model. -/
theorem C3_amended_witness :
    (schemaOf c3Frame []).missing_required = [] ∧
    ∃ out, score_dataframe c3Model c3Frame [] = Except.ok out ∧
      out.nrows = c3Frame.nrows ∧
      out.getCol "churn_probability" =
        some ((c3Model (modelInputOf c3Frame [])).map Value.num) ∧
      out.getCol "account_id" =
        some (((schemaOf c3Frame []).df.getCol "account_id").getD []) ∧
      (c3Frame.WF →
        (((schemaOf c3Frame []).df.getCol "account_id").getD []).length =
          c3Frame.nrows) :=
  ⟨by decide, C3_amended c3Model c3Frame [] (by decide)⟩

end Churn
